import Mathlib

/-! Watchdog daemon: result classification, retry and repair escalation.

A shallow embedding of `repair`, `attempt_repair`, `wd_action`, `do_check` and
the main loop of `src/watchdog.c`, with theorems about the escalation decisions
they take and about the order of the calls in one pass of the loop.

Conventions of the embedding.

* A C `int` or `time_t` is an `Int`.  Where a value is stored in an `int` and
  can leave its range, it is reduced with `to_int`, the reduction modulo 2^32
  into the range of a 32-bit signed integer: the explicit conversion
  `(int)(now - act->last_time)`, the counter increment `++act->repair_count`
  (at `INT_MAX` the compiled code wraps around to `INT_MIN`), and the product
  `tint * 1000000` of `main`.
* A `char *` is an `Option String`, `none` being the NULL pointer.
* The mutable `struct list` entry handed in by pointer is passed in and
  returned (`Option list`, `none` being a NULL `act`).
* The two calls with an outcome the daemon does not control, `gettime()` and
  `run_func_as_child(...)`, are read from an `Oracle`.
* Calls with an outside effect are recorded, in program order, as `Event`s.
  `log_message` only writes a log line and is left out.
* A run of the main loop is a `Run`: the `MainEvent`s so far and whether the
  process has ended.  The answers of the check functions, of `keep_alive` and
  of the file operations are read from a `World`.
-/

namespace Watchdog

/-! ## Data model -/

/-- Modelled from the spec: the header `watch_err.h` that defines the result
codes is not among the sources.  The spec (4.1, 6) calls every code other than
`NoError` a "non-zero code", and `sync_system` of `watchdog.c` reports success
as `0`, so `ENOERR` is `0`. -/
def ENOERR : Int := 0

/-- The remaining result codes named by the `switch` of `wd_action`.  Their
values come from headers that are not among the sources, so they are taken as
parameters. -/
structure ErrCodes where
  EDONTKNOW : Int
  EREBOOT : Int
  ERESET : Int
  ETOOHOT : Int
  ENOMEM : Int
deriving DecidableEq, Repr

/-- The case labels of a C `switch` are pairwise distinct. -/
def ErrCodes.distinct (c : ErrCodes) : Prop :=
  [ENOERR, c.EDONTKNOW, c.EREBOOT, c.ERESET, c.ETOOHOT, c.ENOMEM].Nodup

instance (c : ErrCodes) : Decidable c.distinct := by
  unfold ErrCodes.distinct
  infer_instance

/-- A sample assignment of the codes (those of the stock watchdog header, and
the Linux errno value of `ENOMEM`), used for concrete instances. -/
def watch_err : ErrCodes :=
  { EDONTKNOW := 245, EREBOOT := 255, ERESET := 254, ETOOHOT := 252, ENOMEM := 12 }

/-- The fields of `struct list` (`extern.h`) that the escalation code reads or
writes: `name`, `version`, `last_time`, `repair_count`. -/
structure list where
  name : Option String
  version : Int
  last_time : Int
  repair_count : Int
deriving DecidableEq, Repr

/-- The global settings read by the escalation code: `retry_timeout`,
`repair_max`, `repair_timeout` (`configfile.c`) and `no_act` (`watchdog.c`). -/
structure Globals where
  retry_timeout : Int
  repair_max : Int
  repair_timeout : Int
  no_act : Bool

/-- What the outside world answers during one call: the value of `gettime()`
and the value `run_func_as_child` returns for a time-out, a flag word and an
argument array. -/
structure Oracle where
  gettime : Int
  run_func_as_child : Int → Int → List (Option String) → Int

/-- Calls with an outside effect. -/
inductive Event where
  | run_func_as_child (timeout : Int) (code : Int) (arg : List (Option String))
  | do_shutdown (errorcode : Int)
deriving DecidableEq, Repr

/-- The flag `FLAG_REOPEN_STD_REPAIR` (0x04) of `extern.h`. -/
def FLAG_REOPEN_STD_REPAIR : Int := 4

/-- Conversion of a wider integer to `int`: reduction modulo `2^32` into
`[-2^31, 2^31)`. -/
def to_int (x : Int) : Int := (x + 2147483648) % 4294967296 - 2147483648

/-- The NULL-terminated vector a `char *arg[]` array denotes: its entries up to
the first NULL. -/
def argv_of : List (Option String) → List String
  | some s :: rest => s :: argv_of rest
  | _ => []

/-! ## `repair` -/

/-- The array `arg[6]` that `repair` fills in (lines 79-95); `parm` is the
result printed with `%d`. -/
def repair_arg (rbinary : Option String) (result : Int) (name : Option String)
    (version : Int) : List (Option String) :=
  let parm : String := toString result
  if version = 0 then
    [rbinary, rbinary, some parm, name, none, none]
  else
    [name, name, some "repair", some parm, name, none]

/-- The function `repair` (lines 73-109): the returned code and the child run. -/
def repair (g : Globals) (o : Oracle) (rbinary : Option String) (result : Int)
    (name : Option String) (version : Int) : Int × List Event :=
  let arg := repair_arg rbinary result name version
  if arg.getD 0 none = none then
    (result, [])
  else
    let ret := o.run_func_as_child g.repair_timeout FLAG_REOPEN_STD_REPAIR arg
    (ret, [Event.run_func_as_child g.repair_timeout FLAG_REOPEN_STD_REPAIR arg])

/-! ## `attempt_repair` -/

/-- What `attempt_repair` yields: the code it returns, the entry as it leaves
it, and the child runs it made. -/
structure Step where
  result : Int
  act : Option list
  events : List Event
deriving DecidableEq, Repr

/-- The re-try block of `attempt_repair` (lines 115, 130-152): the value of the
local `timeout` after it, and the entry. -/
def retry_check (g : Globals) (o : Oracle) (act : Option list) : Bool × Option list :=
  match act with
  | some a =>
    if g.retry_timeout > 0 then
      let now := o.gettime
      if a.last_time = 0 then
        (false, some { a with last_time := now })
      else
        let tused := to_int (now - a.last_time)
        if tused > g.retry_timeout then (true, some a) else (false, some a)
    else (true, some a)
  | none => (true, none)

/-- The attempt-count block of `attempt_repair` (lines 156-171): the value of
the local `try_repair` after it, and the entry.  The field `repair_count` is an
`int`, so `++act->repair_count` is the successor reduced with `to_int`: at
`INT_MAX` it wraps around to `INT_MIN`. -/
def repair_gate (g : Globals) (act : Option list) : Bool × Option list :=
  match act with
  | some a =>
    if g.repair_max > 0 then
      let a1 : list := { a with repair_count := to_int (a.repair_count + 1) }
      if a1.repair_count > g.repair_max then
        (false, some a1)
      else
        (true, some { a1 with last_time := 0 })
    else (true, some a)
  | none => (true, none)

/-- The name `attempt_repair` reads off the entry (lines 114, 121-122). -/
def act_name (act : Option list) : Option String :=
  match act with
  | some a => a.name
  | none => none

/-- The version `attempt_repair` reads off the entry (lines 113, 121-123). -/
def act_version (act : Option list) : Int :=
  match act with
  | some a => a.version
  | none => 0

/-- The binary `attempt_repair` passes on (lines 126-128). -/
def select_binary (rbinary : Option String) (act : Option list) : Option String :=
  if act_version act = 1 then act_name act else rbinary

/-- The function `attempt_repair` (lines 111-182). -/
def attempt_repair (g : Globals) (o : Oracle) (result : Int) (rbinary : Option String)
    (act : Option list) : Step :=
  let name := act_name act
  let version := act_version act
  let rbinary := select_binary rbinary act
  let t := retry_check g o act
  if t.1 then
    let r := repair_gate g t.2
    if r.1 then
      let p := repair g o rbinary result name version
      { result := p.1, act := r.2, events := p.2 }
    else
      { result := result, act := r.2, events := [] }
  else
    { result := ENOERR, act := t.2, events := [] }

/-! ## `wd_action` -/

/-- What the `switch` of `wd_action` leaves: `left = none` when it returned
from the function, `left = some r` when control goes on to line 215 with
`result = r`. -/
structure Switched where
  left : Option Int
  act : Option list
  events : List Event
deriving DecidableEq, Repr

/-- The `switch` statement of `wd_action` (lines 188-212). -/
def wd_switch (c : ErrCodes) (g : Globals) (o : Oracle) (result : Int)
    (rbinary : Option String) (act : Option list) : Switched :=
  if result = ENOERR then
    { left := none
      act := act.map fun a => { a with last_time := 0, repair_count := 0 }
      events := [] }
  else if result = c.EDONTKNOW then
    { left := none, act := act, events := [] }
  else if result = c.EREBOOT ∨ result = c.ERESET ∨ result = c.ETOOHOT ∨ result = c.ENOMEM then
    { left := some result, act := act, events := [] }
  else
    let s := attempt_repair g o result rbinary act
    { left := some s.result, act := s.act, events := s.events }

/-- The shutdown evaluation of `wd_action` (lines 214-225): the calls it makes
for a result that reached it. -/
def shutdown_eval (g : Globals) (result : Int) : List Event :=
  if result ≠ ENOERR then
    if g.no_act then [] else [Event.do_shutdown result]
  else []

/-- What `wd_action` yields: the entry as it leaves it and the calls made. -/
structure Outcome where
  act : Option list
  events : List Event
deriving DecidableEq, Repr

/-- The function `wd_action` (lines 184-226). -/
def wd_action (c : ErrCodes) (g : Globals) (o : Oracle) (result : Int)
    (rbinary : Option String) (act : Option list) : Outcome :=
  let s := wd_switch c g o result rbinary act
  match s.left with
  | none => { act := s.act, events := s.events }
  | some r => { act := s.act, events := s.events ++ shutdown_eval g r }

/-- A result code is repairable when the `switch` of `wd_action` sends it to
the `default` case. -/
def repairable (c : ErrCodes) (result : Int) : Prop :=
  result ≠ ENOERR ∧ result ≠ c.EDONTKNOW ∧ result ≠ c.EREBOOT ∧ result ≠ c.ERESET ∧
    result ≠ c.ETOOHOT ∧ result ≠ c.ENOMEM

instance (c : ErrCodes) (result : Int) : Decidable (repairable c result) := by
  unfold repairable
  infer_instance

/-- A child run is a `run_func_as_child` event. -/
def Event.is_child : Event → Bool
  | Event.run_func_as_child _ _ _ => true
  | Event.do_shutdown _ => false

/-- A shutdown call is a `do_shutdown` event. -/
def Event.is_shutdown : Event → Bool
  | Event.run_func_as_child _ _ _ => false
  | Event.do_shutdown _ => true

/-- Sample settings: re-try window of 60 s, one repair attempt. -/
def g60 : Globals := { retry_timeout := 60, repair_max := 1, repair_timeout := 60, no_act := false }

/-- Sample outside world: the clock reads `now`, every child run returns `ret`. -/
def world (now ret : Int) : Oracle := { gettime := now, run_func_as_child := fun _ _ _ => ret }

/-- Sample entry named `svc`. -/
def svc (version last_time repair_count : Int) : list :=
  { name := some "svc", version := version, last_time := last_time, repair_count := repair_count }

/-! ## Runs of failing checks on one entry -/

/-- One failing check handed to `attempt_repair`: what the outside world
answers during the call, the result code and the global repair binary. -/
structure Call where
  o : Oracle
  result : Int
  rbinary : Option String

/-- The entry after `attempt_repair` has been called for each of `calls` in
turn, with nothing else touching the entry in between. -/
def attempt_run (g : Globals) : Option list → List Call → Option list
  | act, [] => act
  | act, k :: ks => attempt_run g (attempt_repair g k.o k.result k.rbinary act).act ks

/-- What each call of such a run yields, in order. -/
def attempt_steps (g : Globals) : Option list → List Call → List Step
  | _, [] => []
  | act, k :: ks =>
    attempt_repair g k.o k.result k.rbinary act ::
      attempt_steps g (attempt_repair g k.o k.result k.rbinary act).act ks

/-- How many calls of such a run left the re-try block with `timeout` set,
that is, were acted upon at once. -/
def act_now_count (g : Globals) : Option list → List Call → Nat
  | _, [] => 0
  | act, k :: ks =>
    (if (retry_check g k.o act).1 then 1 else 0) +
      act_now_count g (attempt_repair g k.o k.result k.rbinary act).act ks

/-- Sample call: clock `now`, child status `ret`, result 5, binary `/bin/fix`. -/
def call5 (now ret : Int) : Call :=
  { o := world now ret, result := 5, rbinary := some "/bin/fix" }

/-- Sample settings: re-try window of 60 s, repair attempts not limited. -/
def g_unlimited : Globals :=
  { retry_timeout := 60, repair_max := 0, repair_timeout := 60, no_act := false }

/-- Sample settings: no re-try window, at most two repair attempts. -/
def g_soft : Globals :=
  { retry_timeout := 0, repair_max := 2, repair_timeout := 60, no_act := false }

/-- Sample settings with `no_act` set (the `-q` command line option). -/
def g_dry : Globals :=
  { retry_timeout := 60, repair_max := 1, repair_timeout := 60, no_act := true }

/-- Sample settings: no re-try window, `repair_max` at `INT_MAX`. -/
def g_max : Globals :=
  { retry_timeout := 0, repair_max := 2147483647, repair_timeout := 60, no_act := false }

/-! ## Runs of `wd_action` calls on one entry -/

/-- Whether `wd_action`, called for `k` on the entry `act`, reaches the call of
`repair` at line 174: the result goes to the `default` case, the re-try block
leaves `timeout` set and the attempt-count block leaves `try_repair` set. -/
def invokes_repair (c : ErrCodes) (g : Globals) (k : Call) (act : Option list) : Bool :=
  decide (repairable c k.result) && (retry_check g k.o act).1 &&
    (repair_gate g (retry_check g k.o act).2).1

/-- The entry after `wd_action` has been called for each of `calls` in turn. -/
def wd_run (c : ErrCodes) (g : Globals) : Option list → List Call → Option list
  | act, [] => act
  | act, k :: ks => wd_run c g (wd_action c g k.o k.result k.rbinary act).act ks

/-- The number of calls of `repair` made for the entry since its last ENOERR
classification, after `wd_action` has been called for each of `calls` in turn,
`n` being that number before the first of them. -/
def repair_tally (c : ErrCodes) (g : Globals) : Option list → Nat → List Call → Nat
  | _, n, [] => n
  | act, n, k :: ks =>
    repair_tally c g (wd_action c g k.o k.result k.rbinary act).act
      (if k.result = ENOERR then 0 else if invokes_repair c g k act then n + 1 else n) ks

/-- The number of child runs in a list of calls. -/
def child_runs (l : List Event) : Nat := (l.filter Event.is_child).length

/-- The number of runs of the repair binary made for the entry since its last
ENOERR classification, after `wd_action` has been called for each of `calls` in
turn, `n` being that number before the first of them. -/
def child_tally (c : ErrCodes) (g : Globals) : Option list → Nat → List Call → Nat
  | _, n, [] => n
  | act, n, k :: ks =>
    child_tally c g (wd_action c g k.o k.result k.rbinary act).act
      (if k.result = ENOERR then 0
        else n + child_runs (wd_action c g k.o k.result k.rbinary act).events) ks

/-- Sample settings: no re-try window, one repair attempt, `no_act` set. -/
def g_one : Globals :=
  { retry_timeout := 0, repair_max := 1, repair_timeout := 60, no_act := true }

/-- Sample call with result code `result`: clock `now`, child status `ret`. -/
def call_of (result now ret : Int) : Call :=
  { o := world now ret, result := result, rbinary := some "/bin/fix" }

/-! ## The main loop (`do_check`, `main`) -/

/-- The check functions whose code is not among the sources; what they return
is read from the `World`. -/
inductive CheckFn where
  | check_file_table
  | check_load
  | check_memory
  | check_allocatable
  | check_temp
  | check_file_stat_safe
  | check_pidfile
  | check_iface
  | check_net
  | check_bin
deriving DecidableEq, Repr

/-- The calls of the main loop with an outside effect, in program order.
`action` is a call made inside `wd_action`; `check f name` is a call of the
check function `f` for the entry called `name` (no name for the checks without
an entry and for the closing `check_bin(NULL, ...)`).  The messages written
with `perror`, `fprintf` and `syslog` are left out. -/
inductive MainEvent where
  | open_file (path : String)
  | write
  | close
  | panic
  | exit (code : Int)
  | sync
  | keep_alive
  | check (f : CheckFn) (name : Option String)
  | action (e : Event)
  | xusleep (usec : Int)
  | terminate (code : Int)
deriving DecidableEq, Repr

/-- The settings of `main` the loop reads: `tint`, `sync_it`, `write_file`,
`repair_bin` and `count_max`. -/
structure Main where
  tint : Int
  sync_it : Bool
  write_file : Option String
  repair_bin : Option String
  count_max : Int

/-- The entries the loop walks: the three timers and the six lists. -/
structure Registry where
  loadtimer : Option list
  memtimer : Option list
  alloctimer : Option list
  temp_list : List list
  file_list : List list
  pidfile_list : List list
  iface_list : List list
  target_list : List list
  tr_bin_list : List list
deriving DecidableEq, Repr

/-- What the outside world answers to the calls of the loop.  Every answer may
depend on the number of events that happened before the call. -/
structure World where
  keep_alive : Nat → Int
  check : CheckFn → Option String → Nat → Int
  oracle : Nat → Oracle
  open_fd : Nat → Int
  write_ret : Nat → Int
  sigterm : Nat → Bool

/-- A run of the process so far: the events, and whether the process has
ended. -/
structure Run where
  trace : List MainEvent
  stopped : Bool
deriving DecidableEq, Repr

/-- A call with an outside effect; nothing happens once the process has
ended. -/
def emit (e : MainEvent) (r : Run) : Run :=
  if r.stopped then r else { r with trace := r.trace ++ [e] }

/-- The end of the process. -/
def stop (r : Run) : Run := { r with stopped := true }

/-- The settle wait `swait` of `main` (line 480), in microseconds. -/
def swait : Int := 50000

/-- The final sleep `twait` of `main` (line 481): the product is computed in
`int` and wraps around when it leaves the range, as the usual compilers have
it; the difference is an `unsigned long` of 64 bits. -/
def twait (tint : Int) : Int := (to_int (tint * 1000000) - swait) % 18446744073709551616

/-- Modelled from the spec: `do_shutdown` (`shutdown.c`) is not among the
sources; by the spec (4.6) it performs the terminal action and stops the
process.  So a call of `wd_action` inside a run ends the run when it calls
`do_shutdown`; otherwise the run goes on after it. -/
def run_wd_action (c : ErrCodes) (g : Globals) (w : World) (result : Int)
    (rbinary : Option String) (act : Option list) (r : Run) : Option list × Run :=
  if r.stopped then (act, r)
  else
    let out := wd_action c g (w.oracle r.trace.length) result rbinary act
    (out.act,
      { trace := r.trace ++ out.events.map MainEvent.action,
        stopped := out.events.any Event.is_shutdown })

/-- A call of `keep_alive()`: its result and the run after it. -/
def run_keep_alive (w : World) (r : Run) : Int × Run :=
  (w.keep_alive r.trace.length, emit MainEvent.keep_alive r)

/-- A call of a check function: its result and the run after it. -/
def run_check (w : World) (f : CheckFn) (name : Option String) (r : Run) : Int × Run :=
  (w.check f name r.trace.length, emit (MainEvent.check f name) r)

/-- The function `sync_system` (lines 63-70): its result and its calls. -/
def sync_system (sync_it : Bool) : Int × List MainEvent :=
  (0, if sync_it then [MainEvent.sync, MainEvent.sync] else [])

/-- The function `do_check` (lines 228-232): the entry and the run after it. -/
def do_check (c : ErrCodes) (g : Globals) (w : World) (res : Int) (rbinary : Option String)
    (act : Option list) (r : Run) : Option list × Run :=
  let a := run_wd_action c g w res rbinary act r
  let k := run_keep_alive w a.2
  let b := run_wd_action c g w k.1 rbinary none k.2
  (a.1, b.2)

/-- A loop `for (act = l; act != NULL; act = act->next) do_check(f(act), repair_bin, act)`
of `main` (lines 541-564): the entries and the run after it. -/
def check_list (c : ErrCodes) (g : Globals) (w : World) (f : CheckFn)
    (rbinary : Option String) : List list → Run → List list × Run
  | [], r => ([], r)
  | a :: rest, r =>
    let k := run_check w f a.name r
    let d := do_check c g w k.1 rbinary (some a) k.2
    let t := check_list c g w f rbinary rest d.2
    (d.1.getD a :: t.1, t.2)

/-- The block on `write_file` at the head of the loop body (lines 501-524). -/
def write_sentinel (c : ErrCodes) (g : Globals) (w : World) (m : Main) (r : Run) : Run :=
  match m.write_file with
  | some path =>
    let wrf_fd := w.open_fd r.trace.length
    let r1 := emit (MainEvent.open_file path) r
    if wrf_fd = -1 then
      stop (emit (MainEvent.exit 1) (emit MainEvent.panic r1))
    else
      let wrf_fd_ret := w.write_ret r1.trace.length
      let r2 := emit MainEvent.write r1
      if wrf_fd_ret = 1 then
        let k := run_keep_alive w r2
        let b := run_wd_action c g w k.1 m.repair_bin none k.2
        emit MainEvent.close b.2
      else
        stop (emit (MainEvent.exit 1) (emit MainEvent.panic (emit MainEvent.close r2)))
  | none =>
    let k := run_keep_alive w r
    (run_wd_action c g w k.1 m.repair_bin none k.2).2

/-- The rest of the loop body (lines 525-572): the checks and the two sleeps. -/
def cycle_checks (c : ErrCodes) (g : Globals) (w : World) (m : Main) (reg : Registry)
    (r : Run) : Registry × Run :=
  let s := sync_system m.sync_it
  let r0 := s.2.foldl (fun x e => emit e x) r
  let d1 := do_check c g w s.1 m.repair_bin none r0
  let k2 := run_check w CheckFn.check_file_table none d1.2
  let d2 := do_check c g w k2.1 m.repair_bin none k2.2
  let k3 := run_check w CheckFn.check_load none d2.2
  let d3 := do_check c g w k3.1 m.repair_bin reg.loadtimer k3.2
  let k4 := run_check w CheckFn.check_memory none d3.2
  let d4 := do_check c g w k4.1 m.repair_bin reg.memtimer k4.2
  let k5 := run_check w CheckFn.check_allocatable none d4.2
  let d5 := do_check c g w k5.1 m.repair_bin reg.alloctimer k5.2
  let t1 := check_list c g w CheckFn.check_temp m.repair_bin reg.temp_list d5.2
  let t2 := check_list c g w CheckFn.check_file_stat_safe m.repair_bin reg.file_list t1.2
  let t3 := check_list c g w CheckFn.check_pidfile m.repair_bin reg.pidfile_list t2.2
  let t4 := check_list c g w CheckFn.check_iface m.repair_bin reg.iface_list t3.2
  let t5 := check_list c g w CheckFn.check_net m.repair_bin reg.target_list t4.2
  let t6 := check_list c g w CheckFn.check_bin m.repair_bin reg.tr_bin_list t5.2
  let x1 := emit (MainEvent.xusleep swait) t6.2
  let k7 := run_check w CheckFn.check_bin none x1
  let x2 := emit (MainEvent.xusleep (twait m.tint)) k7.2
  ({ loadtimer := d3.1, memtimer := d4.1, alloctimer := d5.1, temp_list := t1.1,
     file_list := t2.1, pidfile_list := t3.1, iface_list := t4.1, target_list := t5.1,
     tr_bin_list := t6.1 }, x2)

/-- One pass through the body of the main loop, up to the final sleep (lines
496-572). -/
def cycle (c : ErrCodes) (g : Globals) (w : World) (m : Main) (reg : Registry) (r : Run) :
    Registry × Run :=
  cycle_checks c g w m reg (write_sentinel c g w m r)

/-- The main loop and the teardown after it (lines 495-589), run for at most
`fuel` passes: `count` is the pass counter; the loop is left when SIGTERM has
cleared `_running` or when `count_max` passes are done, and `terminate` then
ends the process. -/
def main_loop (c : ErrCodes) (g : Globals) (w : World) (m : Main) :
    Nat → Int → Registry → Run → Registry × Run
  | 0, _, reg, r => (reg, r)
  | fuel + 1, count, reg, r =>
    if r.stopped then (reg, r)
    else if w.sigterm r.trace.length then (reg, stop (emit (MainEvent.terminate 0) r))
    else
      let cy := cycle c g w m reg r
      if m.count_max > 0 ∧ count + 1 ≥ m.count_max then
        (cy.1, stop (emit (MainEvent.terminate 0) cy.2))
      else main_loop c g w m fuel (count + 1) cy.1 cy.2

/-- The number of `keep_alive` calls in a list of events. -/
def pets (t : List MainEvent) : Nat := t.count MainEvent.keep_alive

/-- The check calls in a list of events, in order. -/
def checks_of (t : List MainEvent) : List (CheckFn × Option String) :=
  t.filterMap fun e =>
    match e with
    | MainEvent.check f name => some (f, name)
    | _ => none

/-- The sleeps in a list of events, in order. -/
def sleeps_of (t : List MainEvent) : List Int :=
  t.filterMap fun e =>
    match e with
    | MainEvent.xusleep n => some n
    | _ => none

/-- The time one pass takes, in microseconds, when its checks consume `d`: `d`
and the two sleeps. -/
def cycle_elapsed (tint d : Int) : Int := d + swait + twait tint

/-- One check of the loop as the spec lists it: the check function, the name
it is called for, and the entry its result is handed to `wd_action` with. -/
structure Planned where
  f : CheckFn
  arg : Option String
  act : Option list
deriving DecidableEq, Repr

/-- The checks of one pass in the order the spec gives (4.5, 5): file table,
load average, free memory, allocatable memory, then every temperature sensor,
file, pid file, interface, ping target and test binary, each list in list
order. -/
def spec_order (reg : Registry) : List Planned :=
  [{ f := CheckFn.check_file_table, arg := none, act := none },
   { f := CheckFn.check_load, arg := none, act := reg.loadtimer },
   { f := CheckFn.check_memory, arg := none, act := reg.memtimer },
   { f := CheckFn.check_allocatable, arg := none, act := reg.alloctimer }] ++
  reg.temp_list.map (fun a => { f := CheckFn.check_temp, arg := a.name, act := some a }) ++
  reg.file_list.map (fun a =>
    { f := CheckFn.check_file_stat_safe, arg := a.name, act := some a }) ++
  reg.pidfile_list.map (fun a => { f := CheckFn.check_pidfile, arg := a.name, act := some a }) ++
  reg.iface_list.map (fun a => { f := CheckFn.check_iface, arg := a.name, act := some a }) ++
  reg.target_list.map (fun a => { f := CheckFn.check_net, arg := a.name, act := some a }) ++
  reg.tr_bin_list.map (fun a => { f := CheckFn.check_bin, arg := a.name, act := some a })

/-- One turn of a check loop of `main`, for the planned check `p`: the check
function is called and `do_check` is called with what it returned. -/
def loop_step (c : ErrCodes) (g : Globals) (w : World) (rbinary : Option String) (r : Run)
    (p : Planned) : Run :=
  (do_check c g w (run_check w p.f p.arg r).1 rbinary p.act (run_check w p.f p.arg r).2).2

/-- The turns of `main` for a list of planned checks, one after the other. -/
def loop_run (c : ErrCodes) (g : Globals) (w : World) (rbinary : Option String)
    (plan : List Planned) (r : Run) : Run :=
  plan.foldl (loop_step c g w rbinary) r

/-- What the claim has happen to one result `res` that belongs to the entry
`act`: it is passed to `wd_action` together with that entry; unless
`do_shutdown` ended the process there, the pet follows and its result is
passed to `wd_action` without an entry.  Written from `wd_action` alone: the
entry as `wd_action` leaves it, and the run. -/
def spec_handle (c : ErrCodes) (g : Globals) (w : World) (rbinary : Option String) (res : Int)
    (act : Option list) (r : Run) : Option list × Run :=
  if r.stopped then (act, r)
  else
    let out := wd_action c g (w.oracle r.trace.length) res rbinary act
    let t1 := r.trace ++ out.events.map MainEvent.action
    if out.events.any Event.is_shutdown then (out.act, { trace := t1, stopped := true })
    else
      let t2 := t1 ++ [MainEvent.keep_alive]
      let pet := wd_action c g (w.oracle t2.length) (w.keep_alive t1.length) rbinary none
      (out.act,
        { trace := t2 ++ pet.events.map MainEvent.action,
          stopped := pet.events.any Event.is_shutdown })

/-- One planned check carried out as the claim has it: the check is evaluated
and its result is passed to `wd_action` with its own entry before anything
else happens. -/
def spec_step (c : ErrCodes) (g : Globals) (w : World) (rbinary : Option String) (r : Run)
    (p : Planned) : Option list × Run :=
  if r.stopped then (p.act, r)
  else
    spec_handle c g w rbinary (w.check p.f p.arg r.trace.length) p.act
      { trace := r.trace ++ [MainEvent.check p.f p.arg], stopped := false }

/-- The planned checks carried out strictly one after the other, in the order
of the plan. -/
def spec_run (c : ErrCodes) (g : Globals) (w : World) (rbinary : Option String)
    (plan : List Planned) (r : Run) : Run :=
  plan.foldl (fun x p => (spec_step c g w rbinary x p).2) r

/-- The number of entries in the six lists. -/
def Registry.size (reg : Registry) : Nat :=
  reg.temp_list.length + reg.file_list.length + reg.pidfile_list.length +
    reg.iface_list.length + reg.target_list.length + reg.tr_bin_list.length

/-- Sample world: every check and every pet succeeds, the clock reads 0, file
operations succeed, no SIGTERM. -/
def quiet : World :=
  { keep_alive := fun _ => 0, check := fun _ _ _ => 0, oracle := fun _ => world 0 0,
    open_fd := fun _ => 3, write_ret := fun _ => 1, sigterm := fun _ => false }

/-- Sample world in which the sentinel file cannot be opened. -/
def readonly_disk : World := { quiet with open_fd := fun _ => -1 }

/-- Sample world in which the write to the sentinel file writes nothing. -/
def full_disk : World := { quiet with write_ret := fun _ => 0 }

/-- Sample world in which the test binary `svc` reports the error 5 and every
child run returns 0. -/
def svc_fails : World :=
  { quiet with
    check := fun f name _ => if f = CheckFn.check_bin ∧ name = some "svc" then 5 else 0 }

/-- Sample settings of `main`: interval 1 s, no sentinel file. -/
def main1 : Main :=
  { tint := 1, sync_it := false, write_file := none, repair_bin := some "/bin/fix",
    count_max := 0 }

/-- Sample settings of `main` with the sentinel file `watchdog.txt`. -/
def main_wf : Main := { main1 with write_file := some "watchdog.txt" }

/-- Sample entry of version 0 with the given name, never failed so far. -/
def fresh (name : String) : list :=
  { name := some name, version := 0, last_time := 0, repair_count := 0 }

/-- Sample registry without entries in the lists. -/
def reg0 : Registry :=
  { loadtimer := some (fresh "<load-average>")
    memtimer := some (fresh "<free-memory>")
    alloctimer := some (fresh "<alloc-memory>")
    temp_list := []
    file_list := []
    pidfile_list := []
    iface_list := []
    target_list := []
    tr_bin_list := [] }

/-- Sample registry with one file and two test binaries. -/
def reg3 : Registry :=
  { reg0 with
    file_list := [fresh "/var/log/syslog"]
    tr_bin_list := [svc 1 0 0, fresh "tst"] }

/-- The run of a process that has done nothing yet. -/
def start : Run := { trace := [], stopped := false }

/-- A projection of events that sees nothing of the calls made inside
`wd_action` nor of `open`, `write`, `close` and `sync`. -/
def blind {β : Type} (φ : MainEvent → Option β) : Prop :=
  (∀ e, φ (MainEvent.action e) = none) ∧ (∀ p, φ (MainEvent.open_file p) = none) ∧
    φ MainEvent.write = none ∧ φ MainEvent.close = none ∧ φ MainEvent.sync = none

/-- The projection that keeps the `keep_alive` calls. -/
def pet_of : MainEvent → Option Unit
  | MainEvent.keep_alive => some ()
  | _ => none

/-- The projection that keeps the check calls. -/
def check_of : MainEvent → Option (CheckFn × Option String)
  | MainEvent.check f name => some (f, name)
  | _ => none

/-- The projection that keeps the sleeps. -/
def sleep_of : MainEvent → Option Int
  | MainEvent.xusleep n => some n
  | _ => none

/-! ## Helper lemmas -/

theorem distinct_facts (c : ErrCodes) (hc : c.distinct) :
    (c.EDONTKNOW ≠ ENOERR ∧ c.EREBOOT ≠ ENOERR ∧ c.ERESET ≠ ENOERR ∧ c.ETOOHOT ≠ ENOERR ∧
      c.ENOMEM ≠ ENOERR) ∧
    (c.EREBOOT ≠ c.EDONTKNOW ∧ c.ERESET ≠ c.EDONTKNOW ∧ c.ETOOHOT ≠ c.EDONTKNOW ∧
      c.ENOMEM ≠ c.EDONTKNOW) := by
  unfold ErrCodes.distinct at hc
  simp only [List.nodup_cons, List.mem_cons, List.mem_singleton, not_or, List.not_mem_nil,
    not_false_eq_true, List.nodup_nil, and_true] at hc
  obtain ⟨⟨h1, h2, h3, h4, h5⟩, ⟨k1, k2, k3, k4⟩, _⟩ := hc
  exact ⟨⟨Ne.symm h1, Ne.symm h2, Ne.symm h3, Ne.symm h4, Ne.symm h5⟩,
    ⟨Ne.symm k1, Ne.symm k2, Ne.symm k3, Ne.symm k4⟩⟩

theorem wd_switch_unrepairable (c : ErrCodes) (hc : c.distinct) (g : Globals) (o : Oracle)
    (code : Int) (rbinary : Option String) (act : Option list)
    (hcode : code = c.EREBOOT ∨ code = c.ERESET ∨ code = c.ETOOHOT ∨ code = c.ENOMEM) :
    code ≠ ENOERR ∧
      wd_switch c g o code rbinary act = { left := some code, act := act, events := [] } := by
  obtain ⟨⟨_, h2, h3, h4, h5⟩, ⟨k2, k3, k4, k5⟩⟩ := distinct_facts c hc
  have hne : code ≠ ENOERR := by
    rcases hcode with h | h | h | h <;> rw [h] <;> assumption
  have hnd : code ≠ c.EDONTKNOW := by
    rcases hcode with h | h | h | h <;> rw [h] <;> assumption
  refine ⟨hne, ?_⟩
  unfold wd_switch
  rw [if_neg hne, if_neg hnd, if_pos hcode]

theorem wd_switch_repairable (c : ErrCodes) (g : Globals) (o : Oracle) (result : Int)
    (rbinary : Option String) (act : Option list) (hR : repairable c result) :
    wd_switch c g o result rbinary act =
      { left := some (attempt_repair g o result rbinary act).result
        act := (attempt_repair g o result rbinary act).act
        events := (attempt_repair g o result rbinary act).events } := by
  obtain ⟨h0, h1, h2, h3, h4, h5⟩ := hR
  unfold wd_switch
  rw [if_neg h0, if_neg h1, if_neg (by simp [h2, h3, h4, h5])]

theorem to_int_eq (x : Int) (h1 : -2147483648 ≤ x) (h2 : x < 2147483648) : to_int x = x := by
  unfold to_int
  omega

theorem to_int_le (x : Int) (h1 : -2147483648 ≤ x) : to_int x ≤ x := by
  unfold to_int
  omega

theorem to_int_lt (x : Int) : to_int x < 2147483648 := by
  unfold to_int
  omega

theorem attempt_repair_defer (g : Globals) (o : Oracle) (result : Int) (rbinary : Option String)
    (act : Option list) (h : (retry_check g o act).1 = false) :
    attempt_repair g o result rbinary act =
      { result := ENOERR, act := (retry_check g o act).2, events := [] } := by
  unfold attempt_repair
  simp [h]

theorem attempt_repair_act (g : Globals) (o : Oracle) (result : Int) (rbinary : Option String)
    (act : Option list) (h : (retry_check g o act).1 = true) :
    attempt_repair g o result rbinary act =
      (if (repair_gate g (retry_check g o act).2).1 then
        { result := (repair g o (select_binary rbinary act) result (act_name act)
            (act_version act)).1
          act := (repair_gate g (retry_check g o act).2).2
          events := (repair g o (select_binary rbinary act) result (act_name act)
            (act_version act)).2 }
      else
        { result := result, act := (repair_gate g (retry_check g o act).2).2, events := [] }) := by
  unfold attempt_repair
  simp [h]

theorem retry_check_first (g : Globals) (o : Oracle) (a : list) (hT : g.retry_timeout > 0)
    (h0 : a.last_time = 0) :
    retry_check g o (some a) = (false, some { a with last_time := o.gettime }) := by
  unfold retry_check
  simp [hT, h0]

theorem retry_check_within (g : Globals) (o : Oracle) (a : list) (hT : g.retry_timeout > 0)
    (h0 : a.last_time ≠ 0) (hlo : -2147483648 ≤ o.gettime - a.last_time)
    (hd : o.gettime - a.last_time ≤ g.retry_timeout) :
    retry_check g o (some a) = (false, some a) := by
  have h1 := to_int_le (o.gettime - a.last_time) hlo
  have h2 := to_int_lt (o.gettime - a.last_time)
  have h3 : ¬ to_int (o.gettime - a.last_time) > g.retry_timeout := by omega
  unfold retry_check
  simp only [hT, h0, h3, if_true, if_false]

theorem retry_check_elapsed (g : Globals) (o : Oracle) (a : list) (hT : g.retry_timeout > 0)
    (h0 : a.last_time ≠ 0) (hhi : o.gettime - a.last_time < 2147483648)
    (hd : o.gettime - a.last_time > g.retry_timeout) :
    retry_check g o (some a) = (true, some a) := by
  have h1 := to_int_eq (o.gettime - a.last_time) (by omega) hhi
  have h3 : to_int (o.gettime - a.last_time) > g.retry_timeout := by omega
  unfold retry_check
  simp only [hT, h0, h3, if_true, if_false]

theorem retry_check_off (g : Globals) (o : Oracle) (act : Option list)
    (h : g.retry_timeout ≤ 0 ∨ act = none) : retry_check g o act = (true, act) := by
  unfold retry_check
  cases act with
  | none => rfl
  | some a =>
    rcases h with h | h
    · have : ¬ g.retry_timeout > 0 := by omega
      simp only [this, if_false]
    · cases h

theorem retry_check_true_keeps (g : Globals) (o : Oracle) (act : Option list)
    (h : (retry_check g o act).1 = true) : retry_check g o act = (true, act) := by
  cases act with
  | none => rfl
  | some a =>
    unfold retry_check at h ⊢
    by_cases hT : g.retry_timeout > 0
    · by_cases h0 : a.last_time = 0
      · simp [hT, h0] at h
      · by_cases h3 : to_int (o.gettime - a.last_time) > g.retry_timeout
        · simp only [hT, h0, h3, if_true, if_false]
        · simp [hT, h0, h3] at h
    · simp only [hT, if_false]

theorem retry_check_count (g : Globals) (o : Oracle) (a : list) :
    ∃ a1, (retry_check g o (some a)).2 = some a1 ∧ a1.repair_count = a.repair_count ∧
      a1.name = a.name ∧ a1.version = a.version := by
  unfold retry_check
  by_cases hT : g.retry_timeout > 0
  · by_cases h0 : a.last_time = 0
    · exact ⟨{ a with last_time := o.gettime }, by simp [hT, h0], rfl, rfl, rfl⟩
    · by_cases h3 : to_int (o.gettime - a.last_time) > g.retry_timeout
      · exact ⟨a, by simp only [hT, h0, h3, if_true, if_false], rfl, rfl, rfl⟩
      · exact ⟨a, by simp only [hT, h0, h3, if_true, if_false], rfl, rfl, rfl⟩
  · exact ⟨a, by simp only [hT, if_false], rfl, rfl, rfl⟩

theorem repair_gate_capped (g : Globals) (a : list) (hmax : g.repair_max > 0)
    (h : to_int (a.repair_count + 1) > g.repair_max) :
    repair_gate g (some a) =
      (false, some { a with repair_count := to_int (a.repair_count + 1) }) := by
  unfold repair_gate
  simp only [hmax, h, if_true]

theorem repair_gate_counted (g : Globals) (a : list) (hmax : g.repair_max > 0)
    (h : ¬ to_int (a.repair_count + 1) > g.repair_max) :
    repair_gate g (some a) =
      (true, some { a with repair_count := to_int (a.repair_count + 1), last_time := 0 }) := by
  unfold repair_gate
  simp only [hmax, h, if_true, if_false]

theorem repair_gate_unlimited (g : Globals) (act : Option list)
    (h : g.repair_max ≤ 0 ∨ act = none) : repair_gate g act = (true, act) := by
  unfold repair_gate
  cases act with
  | none => rfl
  | some a =>
    rcases h with h | h
    · have : ¬ g.repair_max > 0 := by omega
      simp only [this, if_false]
    · cases h

theorem attempt_repair_count (g : Globals) (hmax : g.repair_max > 0) (o : Oracle) (result : Int)
    (rbinary : Option String) (a : list) :
    ∃ a2, (attempt_repair g o result rbinary (some a)).act = some a2 ∧
      a2.repair_count =
        (if (retry_check g o (some a)).1 then to_int (a.repair_count + 1)
          else a.repair_count) := by
  by_cases ht : (retry_check g o (some a)).1 = true
  · have hk := retry_check_true_keeps g o (some a) ht
    rw [attempt_repair_act g o result rbinary (some a) ht, hk]
    by_cases hc : to_int (a.repair_count + 1) > g.repair_max
    · rw [repair_gate_capped g a hmax hc]
      exact ⟨_, rfl, by simp⟩
    · rw [repair_gate_counted g a hmax hc]
      exact ⟨_, rfl, by simp⟩
  · have hf : (retry_check g o (some a)).1 = false := by simpa using ht
    obtain ⟨a1, h1, h2, _, _⟩ := retry_check_count g o a
    rw [attempt_repair_defer g o result rbinary (some a) hf]
    exact ⟨a1, h1, by simp [h2, hf]⟩

theorem attempt_run_count (g : Globals) (hmax : g.repair_max > 0) (calls : List Call) :
    ∀ a : list, -2147483648 ≤ a.repair_count →
      a.repair_count + (act_now_count g (some a) calls : Int) < 2147483648 →
      ∃ a2, attempt_run g (some a) calls = some a2 ∧
        a2.repair_count = a.repair_count + (act_now_count g (some a) calls : Int) := by
  induction calls with
  | nil => intro a _ _; exact ⟨a, rfl, by simp [act_now_count]⟩
  | cons k ks ih =>
    intro a hlo hhi
    obtain ⟨a1, h1, h2⟩ := attempt_repair_count g hmax k.o k.result k.rbinary a
    have hunf : act_now_count g (some a) (k :: ks) =
        (if (retry_check g k.o (some a)).1 then 1 else 0) + act_now_count g (some a1) ks := by
      show (if (retry_check g k.o (some a)).1 then 1 else 0) +
        act_now_count g (attempt_repair g k.o k.result k.rbinary (some a)).act ks = _
      rw [h1]
    rw [hunf] at hhi ⊢
    have h3 : a1.repair_count =
        a.repair_count + ((if (retry_check g k.o (some a)).1 then 1 else 0 : Nat) : Int) := by
      rw [h2]
      by_cases ht : (retry_check g k.o (some a)).1 = true
      · simp only [ht, if_true] at hhi ⊢
        push_cast at hhi ⊢
        exact to_int_eq _ (by omega) (by omega)
      · have hf : (retry_check g k.o (some a)).1 = false := by simpa using ht
        simp [hf]
    obtain ⟨a2, h4, h5⟩ := ih a1 (by rw [h3]; omega) (by rw [h3]; push_cast at hhi ⊢; omega)
    refine ⟨a2, ?_, ?_⟩
    · show attempt_run g (attempt_repair g k.o k.result k.rbinary (some a)).act ks = some a2
      rw [h1, h4]
    · rw [h5, h3]
      push_cast
      ring

theorem attempt_run_replicate (g : Globals) (hT : g.retry_timeout ≤ 0) (hmax : g.repair_max > 0)
    (hint : g.repair_max < 2147483648) (k : Call) (n : Nat) :
    ∀ a : list, a.last_time = 0 → -2147483648 ≤ a.repair_count →
      a.repair_count + (n : Int) ≤ g.repair_max →
      attempt_run g (some a) (List.replicate n k) =
        some { a with repair_count := a.repair_count + (n : Int) } ∧
      act_now_count g (some a) (List.replicate n k) = n := by
  induction n with
  | zero =>
    intro a _ _ _
    refine ⟨?_, rfl⟩
    show some a = _
    simp
  | succ n ih =>
    intro a hl hlo hhi
    push_cast at hhi
    have hr := retry_check_off g k.o (some a) (Or.inl hT)
    have hti : to_int (a.repair_count + 1) = a.repair_count + 1 :=
      to_int_eq _ (by omega) (by omega)
    have hg := repair_gate_counted g a hmax (by rw [hti]; omega)
    have hstep : (attempt_repair g k.o k.result k.rbinary (some a)).act =
        some { a with repair_count := a.repair_count + 1 } := by
      rw [attempt_repair_act g k.o k.result k.rbinary (some a) (by rw [hr]), hr, hg]
      simp only [if_true]
      rw [hti]
      cases a
      simp_all
    obtain ⟨h1, h2⟩ := ih { a with repair_count := a.repair_count + 1 } hl
      (by show -2147483648 ≤ a.repair_count + 1; omega)
      (by show a.repair_count + 1 + (n : Int) ≤ g.repair_max; omega)
    constructor
    · show attempt_run g (attempt_repair g k.o k.result k.rbinary (some a)).act
        (List.replicate n k) = _
      rw [hstep, h1]
      show some { a with repair_count := a.repair_count + 1 + (n : Int) } = _
      push_cast
      rw [add_assoc, add_comm (1 : Int) (n : Int)]
    · show (if (retry_check g k.o (some a)).1 then 1 else 0) +
        act_now_count g (attempt_repair g k.o k.result k.rbinary (some a)).act
          (List.replicate n k) = n + 1
      rw [hstep, h2, hr]
      simp only [if_true]
      omega

theorem shutdown_eval_ne (g : Globals) (r : Int) (h : r ≠ ENOERR) :
    shutdown_eval g r = (if g.no_act then [] else [Event.do_shutdown r]) := by
  unfold shutdown_eval
  rw [if_pos h]

theorem wd_action_repairable (c : ErrCodes) (g : Globals) (o : Oracle) (result : Int)
    (rbinary : Option String) (act : Option list) (hR : repairable c result) :
    wd_action c g o result rbinary act =
      { act := (attempt_repair g o result rbinary act).act
        events := (attempt_repair g o result rbinary act).events ++
          shutdown_eval g (attempt_repair g o result rbinary act).result } := by
  unfold wd_action
  rw [wd_switch_repairable c g o result rbinary act hR]

theorem repair_null (g : Globals) (o : Oracle) (rbinary : Option String) (result : Int)
    (name : Option String) (version : Int)
    (hnull : (if version = 0 then rbinary else name) = none) :
    repair g o rbinary result name version = (result, []) := by
  unfold repair repair_arg
  by_cases hv : version = 0
  · rw [if_pos hv] at hnull
    simp [hv, hnull]
  · rw [if_neg hv] at hnull
    simp [hv, hnull]

theorem repair_run (g : Globals) (o : Oracle) (rbinary : Option String) (result : Int)
    (name : Option String) (version : Int)
    (hbin : (if version = 0 then rbinary else name) ≠ none) :
    repair g o rbinary result name version =
      (o.run_func_as_child g.repair_timeout FLAG_REOPEN_STD_REPAIR
          (repair_arg rbinary result name version),
        [Event.run_func_as_child g.repair_timeout FLAG_REOPEN_STD_REPAIR
          (repair_arg rbinary result name version)]) := by
  have h0 : (repair_arg rbinary result name version).getD 0 none ≠ none := by
    unfold repair_arg
    by_cases hv : version = 0
    · rw [if_pos hv] at hbin
      simpa [hv] using hbin
    · rw [if_neg hv] at hbin
      simpa [hv] using hbin
  unfold repair
  simp only [h0, if_false]

theorem repair_events (g : Globals) (o : Oracle) (rbinary : Option String) (result : Int)
    (name : Option String) (version : Int) :
    ∀ e ∈ (repair g o rbinary result name version).2, e.is_shutdown = false := by
  by_cases hbin : (if version = 0 then rbinary else name) = none
  · rw [repair_null g o rbinary result name version hbin]
    intro e he
    cases he
  · rw [repair_run g o rbinary result name version hbin]
    intro e he
    simp only [List.mem_singleton] at he
    rw [he]
    rfl

theorem attempt_repair_events (g : Globals) (o : Oracle) (result : Int)
    (rbinary : Option String) (act : Option list) :
    ∀ e ∈ (attempt_repair g o result rbinary act).events, e.is_shutdown = false := by
  by_cases ht : (retry_check g o act).1 = true
  · rw [attempt_repair_act g o result rbinary act ht]
    by_cases hg : (repair_gate g (retry_check g o act).2).1 = true
    · rw [if_pos hg]
      exact repair_events g o _ result _ _
    · rw [if_neg hg]
      intro e he
      cases he
  · rw [attempt_repair_defer g o result rbinary act (by simpa using ht)]
    intro e he
    cases he

theorem wd_switch_events (c : ErrCodes) (g : Globals) (o : Oracle) (result : Int)
    (rbinary : Option String) (act : Option list) :
    ∀ e ∈ (wd_switch c g o result rbinary act).events, e.is_shutdown = false := by
  unfold wd_switch
  split
  · intro e he; cases he
  · split
    · intro e he; cases he
    · split
      · intro e he; cases he
      · exact attempt_repair_events g o result rbinary act

theorem wd_action_keeps (c : ErrCodes) (g : Globals) (o : Oracle) (result : Int)
    (rbinary : Option String) (act : Option list) (h0 : result ≠ ENOERR)
    (hR : ¬ repairable c result) : (wd_action c g o result rbinary act).act = act := by
  unfold wd_action wd_switch
  rw [if_neg h0]
  by_cases h1 : result = c.EDONTKNOW
  · rw [if_pos h1]
  · rw [if_neg h1]
    by_cases h2 : result = c.EREBOOT ∨ result = c.ERESET ∨ result = c.ETOOHOT ∨ result = c.ENOMEM
    · rw [if_pos h2]
    · exfalso
      apply hR
      simp only [not_or] at h2
      exact ⟨h0, h1, h2.1, h2.2.1, h2.2.2.1, h2.2.2.2⟩

theorem shutdown_eval_no_child (g : Globals) (r : Int) :
    ∀ e ∈ shutdown_eval g r, e.is_child = false := by
  intro e he
  unfold shutdown_eval at he
  split at he
  · split at he
    · cases he
    · simp only [List.mem_singleton] at he
      rw [he]
      rfl
  · cases he

theorem child_runs_none (l : List Event) (h : ∀ e ∈ l, e.is_child = false) :
    child_runs l = 0 := by
  unfold child_runs
  rw [List.length_eq_zero, List.filter_eq_nil_iff]
  intro e he
  rw [h e he]
  decide

theorem wd_action_not_repairable (c : ErrCodes) (g : Globals) (o : Oracle) (result : Int)
    (rbinary : Option String) (act : Option list) (hR : ¬ repairable c result) :
    ∀ e ∈ (wd_action c g o result rbinary act).events, e.is_child = false := by
  unfold wd_action wd_switch
  by_cases h0 : result = ENOERR
  · rw [if_pos h0]
    intro e he
    cases he
  · rw [if_neg h0]
    by_cases h1 : result = c.EDONTKNOW
    · rw [if_pos h1]
      intro e he
      cases he
    · rw [if_neg h1]
      by_cases h2 : result = c.EREBOOT ∨ result = c.ERESET ∨ result = c.ETOOHOT ∨
          result = c.ENOMEM
      · rw [if_pos h2]
        exact shutdown_eval_no_child g result
      · exfalso
        apply hR
        simp only [not_or] at h2
        exact ⟨h0, h1, h2.1, h2.2.1, h2.2.2.1, h2.2.2.2⟩

theorem invokes_repair_link (c : ErrCodes) (g : Globals) (k : Call) (act : Option list) :
    (invokes_repair c g k act = true →
      (wd_action c g k.o k.result k.rbinary act).events =
        (repair g k.o (select_binary k.rbinary act) k.result (act_name act)
            (act_version act)).2 ++
          shutdown_eval g (repair g k.o (select_binary k.rbinary act) k.result (act_name act)
            (act_version act)).1) ∧
    (invokes_repair c g k act = false →
      ∀ e ∈ (wd_action c g k.o k.result k.rbinary act).events, e.is_child = false) := by
  by_cases hR : repairable c k.result
  · rw [wd_action_repairable c g k.o k.result k.rbinary act hR]
    by_cases ht : (retry_check g k.o act).1 = true
    · rw [attempt_repair_act g k.o k.result k.rbinary act ht]
      by_cases hg : (repair_gate g (retry_check g k.o act).2).1 = true
      · rw [if_pos hg]
        refine ⟨fun _ => rfl, ?_⟩
        intro hinv
        unfold invokes_repair at hinv
        simp [hR, ht, hg] at hinv
      · rw [if_neg hg]
        constructor
        · intro hinv
          unfold invokes_repair at hinv
          simp [hg] at hinv
        · intro _
          exact shutdown_eval_no_child g k.result
    · rw [attempt_repair_defer g k.o k.result k.rbinary act (by simpa using ht)]
      constructor
      · intro hinv
        unfold invokes_repair at hinv
        simp [ht] at hinv
      · intro _
        exact shutdown_eval_no_child g ENOERR
  · constructor
    · intro hinv
      unfold invokes_repair at hinv
      simp [hR] at hinv
    · intro _
      exact wd_action_not_repairable c g k.o k.result k.rbinary act hR

theorem child_runs_repair (g : Globals) (o : Oracle) (rbinary : Option String) (result : Int)
    (name : Option String) (version : Int) (r : Int) :
    child_runs ((repair g o rbinary result name version).2 ++ shutdown_eval g r) ≤ 1 := by
  have hs : (shutdown_eval g r).filter Event.is_child = [] := by
    rw [List.filter_eq_nil_iff]
    intro e he
    rw [shutdown_eval_no_child g r e he]
    decide
  unfold child_runs
  rw [List.filter_append, hs, List.append_nil]
  by_cases hbin : (if version = 0 then rbinary else name) = none
  · rw [repair_null g o rbinary result name version hbin]
    simp
  · rw [repair_run g o rbinary result name version hbin]
    exact List.length_filter_le _ _

theorem child_runs_le (c : ErrCodes) (g : Globals) (k : Call) (act : Option list) :
    child_runs (wd_action c g k.o k.result k.rbinary act).events ≤
      (if invokes_repair c g k act then 1 else 0) := by
  obtain ⟨h1, h2⟩ := invokes_repair_link c g k act
  cases hinv : invokes_repair c g k act
  · rw [child_runs_none _ (h2 hinv)]
    exact Nat.zero_le _
  · rw [h1 hinv]
    exact child_runs_repair g k.o _ k.result _ _ _

theorem repair_tally_cons (c : ErrCodes) (g : Globals) (act : Option list) (n : Nat) (k : Call)
    (ks : List Call) :
    repair_tally c g act n (k :: ks) =
      repair_tally c g (wd_action c g k.o k.result k.rbinary act).act
        (repair_tally c g act n [k]) ks := rfl

theorem child_tally_cons (c : ErrCodes) (g : Globals) (act : Option list) (n : Nat) (k : Call)
    (ks : List Call) :
    child_tally c g act n (k :: ks) =
      child_tally c g (wd_action c g k.o k.result k.rbinary act).act
        (child_tally c g act n [k]) ks := rfl

theorem repair_tally_one (c : ErrCodes) (g : Globals) (act : Option list) (n : Nat) (k : Call) :
    repair_tally c g act n [k] =
      (if k.result = ENOERR then 0 else if invokes_repair c g k act then n + 1 else n) := rfl

theorem child_tally_one (c : ErrCodes) (g : Globals) (act : Option list) (n : Nat) (k : Call) :
    child_tally c g act n [k] =
      (if k.result = ENOERR then 0
        else n + child_runs (wd_action c g k.o k.result k.rbinary act).events) := rfl

theorem wd_action_tally_step (c : ErrCodes) (g : Globals) (hmax : g.repair_max > 0) (k : Call)
    (a : list) (n : Nat) (h1 : (n : Int) ≤ a.repair_count) (h2 : (n : Int) ≤ g.repair_max)
    (h3 : a.repair_count < 2147483647) :
    ∃ a2, (wd_action c g k.o k.result k.rbinary (some a)).act = some a2 ∧
      (repair_tally c g (some a) n [k] : Int) ≤ a2.repair_count ∧
      (repair_tally c g (some a) n [k] : Int) ≤ g.repair_max ∧
      a2.repair_count ≤ a.repair_count + 1 := by
  have hn : (0 : Int) ≤ n := Int.ofNat_nonneg n
  have hti : to_int (a.repair_count + 1) = a.repair_count + 1 :=
    to_int_eq _ (by omega) (by omega)
  rw [repair_tally_one]
  by_cases h0 : k.result = ENOERR
  · refine ⟨{ a with last_time := 0, repair_count := 0 }, ?_, ?_, ?_, ?_⟩
    · rw [h0]
      simp [wd_action, wd_switch]
    · simp [h0]
    · simp only [h0, if_true]
      omega
    · show (0 : Int) ≤ a.repair_count + 1
      omega
  · simp only [h0, if_false]
    by_cases hR : repairable c k.result
    · rw [wd_action_repairable c g k.o k.result k.rbinary (some a) hR]
      by_cases ht : (retry_check g k.o (some a)).1 = true
      · have hk := retry_check_true_keeps g k.o (some a) ht
        rw [attempt_repair_act g k.o k.result k.rbinary (some a) ht]
        by_cases hc : to_int (a.repair_count + 1) > g.repair_max
        · have hg := repair_gate_capped g a hmax hc
          have hinv : invokes_repair c g k (some a) = false := by
            unfold invokes_repair
            rw [hk, hg]
            simp
          rw [hk, hg, hinv]
          refine ⟨_, rfl, ?_, ?_, ?_⟩
          · simp only [Bool.false_eq_true, if_false]
            show (n : Int) ≤ to_int (a.repair_count + 1)
            omega
          · simpa using h2
          · show to_int (a.repair_count + 1) ≤ a.repair_count + 1
            omega
        · have hg := repair_gate_counted g a hmax hc
          have hinv : invokes_repair c g k (some a) = true := by
            unfold invokes_repair
            rw [hk, hg]
            simp [hR]
          rw [hk, hg, hinv]
          refine ⟨_, rfl, ?_, ?_, ?_⟩
          · simp only [if_true]
            show ((n + 1 : Nat) : Int) ≤ to_int (a.repair_count + 1)
            push_cast
            omega
          · simp only [if_true]
            push_cast
            omega
          · show to_int (a.repair_count + 1) ≤ a.repair_count + 1
            omega
      · have hf : (retry_check g k.o (some a)).1 = false := by simpa using ht
        obtain ⟨a1, e1, e2, _, _⟩ := retry_check_count g k.o a
        have hinv : invokes_repair c g k (some a) = false := by
          unfold invokes_repair
          rw [hf]
          simp
        rw [attempt_repair_defer g k.o k.result k.rbinary (some a) hf, hinv]
        refine ⟨a1, e1, ?_, ?_, ?_⟩
        · simp only [Bool.false_eq_true, if_false]
          rw [e2]
          exact h1
        · simpa using h2
        · rw [e2]
          omega
    · have hinv : invokes_repair c g k (some a) = false := by
        unfold invokes_repair
        simp [hR]
      rw [wd_action_keeps c g k.o k.result k.rbinary (some a) h0 hR, hinv]
      refine ⟨a, rfl, ?_, ?_, ?_⟩
      · simpa using h1
      · simpa using h2
      · omega

theorem repair_tally_le (c : ErrCodes) (g : Globals) (hmax : g.repair_max > 0)
    (calls : List Call) :
    ∀ (a : list) (n : Nat), (n : Int) ≤ a.repair_count → (n : Int) ≤ g.repair_max →
      a.repair_count + (calls.length : Int) < 2147483648 →
      (repair_tally c g (some a) n calls : Int) ≤ g.repair_max := by
  induction calls with
  | nil => intro a n _ h2 _; exact h2
  | cons k ks ih =>
    intro a n h1 h2 h3
    rw [List.length_cons] at h3
    push_cast at h3
    obtain ⟨a2, e, f1, f2, f3⟩ := wd_action_tally_step c g hmax k a n h1 h2 (by omega)
    rw [repair_tally_cons, e]
    exact ih a2 _ f1 f2 (by omega)

theorem child_tally_le (c : ErrCodes) (g : Globals) (calls : List Call) :
    ∀ (act : Option list) (n m : Nat), n ≤ m →
      child_tally c g act n calls ≤ repair_tally c g act m calls := by
  induction calls with
  | nil => intro _ n m h; exact h
  | cons k ks ih =>
    intro act n m h
    rw [repair_tally_cons, child_tally_cons]
    apply ih
    rw [repair_tally_one, child_tally_one]
    by_cases h0 : k.result = ENOERR
    · simp [h0]
    · simp only [h0, if_false]
      have hc := child_runs_le c g k act
      cases hinv : invokes_repair c g k act
      · rw [hinv] at hc
        simp only [Bool.false_eq_true, if_false] at hc ⊢
        omega
      · rw [hinv] at hc
        simp only [if_true] at hc ⊢
        omega

theorem wd_run_append (c : ErrCodes) (g : Globals) (p q : List Call) :
    ∀ act : Option list, wd_run c g act (p ++ q) = wd_run c g (wd_run c g act p) q := by
  induction p with
  | nil => intro act; rfl
  | cons k ks ih => intro act; exact ih _

theorem repair_tally_append (c : ErrCodes) (g : Globals) (p q : List Call) :
    ∀ (act : Option list) (n : Nat),
      repair_tally c g act n (p ++ q) =
        repair_tally c g (wd_run c g act p) (repair_tally c g act n p) q := by
  induction p with
  | nil => intro act n; rfl
  | cons k ks ih => intro act n; exact ih _ _

theorem child_tally_append (c : ErrCodes) (g : Globals) (p q : List Call) :
    ∀ (act : Option list) (n : Nat),
      child_tally c g act n (p ++ q) =
        child_tally c g (wd_run c g act p) (child_tally c g act n p) q := by
  induction p with
  | nil => intro act n; rfl
  | cons k ks ih => intro act n; exact ih _ _

theorem wd_run_refused (c : ErrCodes) (g : Globals) (hT : g.retry_timeout ≤ 0)
    (hmax : g.repair_max > 0) (k : Call) (hR : repairable c k.result) (n : Nat) :
    ∀ (a : list) (t u : Nat), g.repair_max ≤ a.repair_count →
      a.repair_count + (n : Int) ≤ 2147483647 →
      wd_run c g (some a) (List.replicate n k) =
          some { a with repair_count := a.repair_count + (n : Int) } ∧
        repair_tally c g (some a) t (List.replicate n k) = t ∧
        child_tally c g (some a) u (List.replicate n k) = u := by
  induction n with
  | zero =>
    intro a t u _ _
    refine ⟨?_, rfl, rfl⟩
    show some a = _
    simp
  | succ n ih =>
    intro a t u hlo hhi
    push_cast at hhi
    have hr := retry_check_off g k.o (some a) (Or.inl hT)
    have hti : to_int (a.repair_count + 1) = a.repair_count + 1 :=
      to_int_eq _ (by omega) (by omega)
    have hg := repair_gate_capped g a hmax (by rw [hti]; omega)
    have hinv : invokes_repair c g k (some a) = false := by
      unfold invokes_repair
      rw [hr, hg]
      simp
    have hstep : (wd_action c g k.o k.result k.rbinary (some a)).act =
        some { a with repair_count := a.repair_count + 1 } := by
      rw [wd_action_repairable c g k.o k.result k.rbinary (some a) hR,
        attempt_repair_act g k.o k.result k.rbinary (some a) (by rw [hr]), hr, hg]
      simp only [Bool.false_eq_true, if_false]
      rw [hti]
    have hchild : child_runs (wd_action c g k.o k.result k.rbinary (some a)).events = 0 :=
      child_runs_none _ ((invokes_repair_link c g k (some a)).2 hinv)
    obtain ⟨h1, h2, h3⟩ := ih { a with repair_count := a.repair_count + 1 } t u
      (by show g.repair_max ≤ a.repair_count + 1; omega)
      (by show a.repair_count + 1 + (n : Int) ≤ 2147483647; omega)
    refine ⟨?_, ?_, ?_⟩
    · show wd_run c g (wd_action c g k.o k.result k.rbinary (some a)).act
        (List.replicate n k) = _
      rw [hstep, h1]
      show some { a with repair_count := a.repair_count + 1 + (n : Int) } = _
      push_cast
      rw [add_assoc, add_comm (1 : Int) (n : Int)]
    · show repair_tally c g (some a) t (k :: List.replicate n k) = t
      rw [repair_tally_cons, repair_tally_one, hstep, hinv]
      simp only [hR.1, if_false, Bool.false_eq_true]
      exact h2
    · show child_tally c g (some a) u (k :: List.replicate n k) = u
      rw [child_tally_cons, child_tally_one, hstep, hchild]
      simp only [hR.1, if_false, Nat.add_zero]
      exact h3

/-! ### Runs of the main loop -/

theorem emit_stopped (e : MainEvent) (r : Run) (h : r.stopped = true) : emit e r = r := by
  unfold emit
  rw [if_pos h]

theorem emit_live (e : MainEvent) (r : Run) (h : r.stopped = false) :
    emit e r = { trace := r.trace ++ [e], stopped := false } := by
  unfold emit
  rw [if_neg (by simp [h])]
  cases r
  simp_all

theorem emit_stopped_eq (e : MainEvent) (r : Run) : (emit e r).stopped = r.stopped := by
  cases h : r.stopped
  · rw [emit_live e r h]
  · rw [emit_stopped e r h, h]

theorem emit_proj {β : Type} (φ : MainEvent → Option β) (e : MainEvent) (r : Run) :
    (emit e r).trace.filterMap φ =
      r.trace.filterMap φ ++ (if r.stopped then [] else (φ e).toList) := by
  cases h : r.stopped
  · rw [emit_live e r h, List.filterMap_append]
    cases hφ : φ e <;> simp [List.filterMap_cons, hφ]
  · rw [emit_stopped e r h]
    simp

theorem run_wd_action_stopped (c : ErrCodes) (g : Globals) (w : World) (result : Int)
    (rbinary : Option String) (act : Option list) (r : Run) (h : r.stopped = true) :
    run_wd_action c g w result rbinary act r = (act, r) := by
  unfold run_wd_action
  rw [if_pos h]

theorem run_wd_action_live (c : ErrCodes) (g : Globals) (w : World) (result : Int)
    (rbinary : Option String) (act : Option list) (r : Run) :
    ((run_wd_action c g w result rbinary act r).2.stopped = false → r.stopped = false) := by
  intro h
  cases hs : r.stopped
  · rfl
  · rw [run_wd_action_stopped c g w result rbinary act r hs] at h
    rw [hs] at h
    exact h

theorem run_wd_action_proj {β : Type} (φ : MainEvent → Option β)
    (hφ : ∀ e, φ (MainEvent.action e) = none) (c : ErrCodes) (g : Globals) (w : World)
    (result : Int) (rbinary : Option String) (act : Option list) (r : Run) :
    (run_wd_action c g w result rbinary act r).2.trace.filterMap φ = r.trace.filterMap φ := by
  cases hs : r.stopped
  · unfold run_wd_action
    rw [if_neg (by simp [hs])]
    show (r.trace ++ _).filterMap φ = _
    rw [List.filterMap_append]
    have : ∀ l : List Event, (l.map MainEvent.action).filterMap φ = [] := by
      intro l
      induction l with
      | nil => rfl
      | cons x xs ih => simp [List.filterMap_cons, hφ x, ih]
    rw [this, List.append_nil]
  · rw [run_wd_action_stopped c g w result rbinary act r hs]

theorem do_check_stopped (c : ErrCodes) (g : Globals) (w : World) (res : Int)
    (rbinary : Option String) (act : Option list) (r : Run) (h : r.stopped = true) :
    do_check c g w res rbinary act r = (act, r) := by
  unfold do_check run_keep_alive
  simp only [run_wd_action_stopped c g w res rbinary act r h, emit_stopped _ r h]
  rw [run_wd_action_stopped c g w _ rbinary none r h]

theorem do_check_live {β : Type} (φ : MainEvent → Option β)
    (hφ : ∀ e, φ (MainEvent.action e) = none) (c : ErrCodes) (g : Globals) (w : World)
    (res : Int) (rbinary : Option String) (act : Option list) (r : Run)
    (h : (do_check c g w res rbinary act r).2.stopped = false) :
    r.stopped = false ∧
      (do_check c g w res rbinary act r).2.trace.filterMap φ =
        r.trace.filterMap φ ++ (φ MainEvent.keep_alive).toList := by
  unfold do_check run_keep_alive at h ⊢
  simp only at h ⊢
  have h1 := run_wd_action_live c g w _ rbinary none _ h
  rw [emit_stopped_eq] at h1
  have h2 := run_wd_action_live c g w res rbinary act r h1
  refine ⟨h2, ?_⟩
  rw [run_wd_action_proj φ hφ, emit_proj, h1, run_wd_action_proj φ hφ]
  simp

theorem spec_step_stopped (c : ErrCodes) (g : Globals) (w : World) (rbinary : Option String)
    (r : Run) (p : Planned) (h : r.stopped = true) : loop_step c g w rbinary r p = r := by
  unfold loop_step run_check
  simp only [emit_stopped _ r h]
  rw [do_check_stopped c g w _ rbinary p.act r h]

theorem spec_step_live {β : Type} (φ : MainEvent → Option β)
    (hφ : ∀ e, φ (MainEvent.action e) = none) (c : ErrCodes) (g : Globals) (w : World)
    (rbinary : Option String) (r : Run) (p : Planned)
    (h : (loop_step c g w rbinary r p).stopped = false) :
    r.stopped = false ∧
      (loop_step c g w rbinary r p).trace.filterMap φ =
        r.trace.filterMap φ ++
          ((φ (MainEvent.check p.f p.arg)).toList ++ (φ MainEvent.keep_alive).toList) := by
  unfold loop_step run_check at h ⊢
  simp only at h ⊢
  obtain ⟨h1, h2⟩ := do_check_live φ hφ c g w _ rbinary p.act _ h
  rw [emit_stopped_eq] at h1
  refine ⟨h1, ?_⟩
  rw [h2, emit_proj, h1]
  simp

theorem spec_run_stopped (c : ErrCodes) (g : Globals) (w : World) (rbinary : Option String)
    (plan : List Planned) (r : Run) (h : r.stopped = true) :
    loop_run c g w rbinary plan r = r := by
  induction plan with
  | nil => rfl
  | cons p ps ih =>
    show loop_run c g w rbinary ps (loop_step c g w rbinary r p) = r
    rw [spec_step_stopped c g w rbinary r p h]
    exact ih

theorem spec_run_live {β : Type} (φ : MainEvent → Option β)
    (hφ : ∀ e, φ (MainEvent.action e) = none) (c : ErrCodes) (g : Globals) (w : World)
    (rbinary : Option String) (plan : List Planned) :
    ∀ r : Run, (loop_run c g w rbinary plan r).stopped = false →
      r.stopped = false ∧
        (loop_run c g w rbinary plan r).trace.filterMap φ =
          r.trace.filterMap φ ++
            plan.flatMap (fun p =>
              (φ (MainEvent.check p.f p.arg)).toList ++ (φ MainEvent.keep_alive).toList) := by
  induction plan with
  | nil =>
    intro r h
    exact ⟨h, by simp [loop_run]⟩
  | cons p ps ih =>
    intro r h
    have h' : (loop_run c g w rbinary ps (loop_step c g w rbinary r p)).stopped = false := h
    obtain ⟨h1, h2⟩ := ih _ h'
    obtain ⟨h3, h4⟩ := spec_step_live φ hφ c g w rbinary r p h1
    refine ⟨h3, ?_⟩
    show (loop_run c g w rbinary ps (loop_step c g w rbinary r p)).trace.filterMap φ = _
    rw [h2, h4, List.flatMap_cons, List.append_assoc]

theorem spec_run_append (c : ErrCodes) (g : Globals) (w : World) (rbinary : Option String)
    (p q : List Planned) (r : Run) :
    loop_run c g w rbinary (p ++ q) r = loop_run c g w rbinary q (loop_run c g w rbinary p r) := by
  unfold loop_run
  rw [List.foldl_append]

theorem check_list_run (c : ErrCodes) (g : Globals) (w : World) (f : CheckFn)
    (rbinary : Option String) (l : List list) :
    ∀ r : Run, (check_list c g w f rbinary l r).2 =
      loop_run c g w rbinary (l.map (fun a => { f := f, arg := a.name, act := some a })) r := by
  induction l with
  | nil => intro r; rfl
  | cons a rest ih =>
    intro r
    show (check_list c g w f rbinary rest _).2 = _
    rw [ih]
    rfl

theorem check_list_stopped (c : ErrCodes) (g : Globals) (w : World) (f : CheckFn)
    (rbinary : Option String) (l : List list) (r : Run) (h : r.stopped = true) :
    check_list c g w f rbinary l r = (l, r) := by
  induction l with
  | nil => rfl
  | cons a rest ih =>
    unfold check_list run_check
    simp only [emit_stopped _ r h, do_check_stopped c g w _ rbinary (some a) r h, ih]
    rfl

theorem sync_emits (sync_it : Bool) (r : Run) :
    ((sync_system sync_it).2.foldl (fun x e => emit e x) r).stopped = r.stopped ∧
    ∀ {β : Type} (φ : MainEvent → Option β), φ MainEvent.sync = none →
      ((sync_system sync_it).2.foldl (fun x e => emit e x) r).trace.filterMap φ =
        r.trace.filterMap φ := by
  cases sync_it
  · exact ⟨rfl, fun _ _ => rfl⟩
  · refine ⟨?_, ?_⟩
    · show (emit MainEvent.sync (emit MainEvent.sync r)).stopped = r.stopped
      rw [emit_stopped_eq, emit_stopped_eq]
    · intro β φ hφ
      show (emit MainEvent.sync (emit MainEvent.sync r)).trace.filterMap φ = _
      rw [emit_proj, emit_proj, hφ]
      simp

theorem sync_emits_stopped (sync_it : Bool) (r : Run) (h : r.stopped = true) :
    (sync_system sync_it).2.foldl (fun x e => emit e x) r = r := by
  cases sync_it
  · rfl
  · show emit MainEvent.sync (emit MainEvent.sync r) = r
    rw [emit_stopped _ r h, emit_stopped _ r h]

theorem write_sentinel_live {β : Type} (φ : MainEvent → Option β) (hφ : blind φ)
    (c : ErrCodes) (g : Globals) (w : World) (m : Main) (r : Run)
    (h : (write_sentinel c g w m r).stopped = false) :
    r.stopped = false ∧
      (write_sentinel c g w m r).trace.filterMap φ =
        r.trace.filterMap φ ++ (φ MainEvent.keep_alive).toList := by
  obtain ⟨ha, ho, hw, hc, _⟩ := hφ
  unfold write_sentinel run_keep_alive at h ⊢
  cases hwf : m.write_file with
  | none =>
    simp only [hwf] at h ⊢
    have h1 := run_wd_action_live c g w _ m.repair_bin none _ h
    rw [emit_stopped_eq] at h1
    refine ⟨h1, ?_⟩
    rw [run_wd_action_proj φ ha, emit_proj, h1]
    simp
  | some path =>
    simp only [hwf] at h ⊢
    by_cases hfd : w.open_fd r.trace.length = -1
    · rw [if_pos hfd] at h
      cases h
    · rw [if_neg hfd] at h ⊢
      by_cases hret : w.write_ret (emit (MainEvent.open_file path) r).trace.length = 1
      · rw [if_pos hret] at h ⊢
        rw [emit_stopped_eq] at h
        have h1 := run_wd_action_live c g w _ m.repair_bin none _ h
        rw [emit_stopped_eq, emit_stopped_eq, emit_stopped_eq] at h1
        refine ⟨h1, ?_⟩
        rw [emit_proj, run_wd_action_proj φ ha, emit_proj, emit_proj, emit_proj, hc, hw,
          ho path]
        simp [h1, emit_stopped_eq]
      · rw [if_neg hret] at h
        cases h

theorem cycle_checks_run (c : ErrCodes) (g : Globals) (w : World) (m : Main) (reg : Registry)
    (r : Run) :
    (cycle_checks c g w m reg r).2 =
      emit (MainEvent.xusleep (twait m.tint))
        (run_check w CheckFn.check_bin none
          (emit (MainEvent.xusleep swait)
            (loop_run c g w m.repair_bin (spec_order reg)
              (do_check c g w 0 m.repair_bin none
                ((sync_system m.sync_it).2.foldl (fun x e => emit e x) r)).2))).2 := by
  unfold cycle_checks spec_order
  simp only [check_list_run, spec_run_append]
  rfl

theorem cycle_checks_stopped (c : ErrCodes) (g : Globals) (w : World) (m : Main)
    (reg : Registry) (r : Run) (h : r.stopped = true) :
    cycle_checks c g w m reg r = (reg, r) := by
  unfold cycle_checks run_check
  simp only [sync_emits_stopped _ r h, do_check_stopped c g w _ _ _ r h, emit_stopped _ r h,
    check_list_stopped c g w _ _ _ r h]

theorem cycle_checks_live {β : Type} (φ : MainEvent → Option β) (hφ : blind φ)
    (c : ErrCodes) (g : Globals) (w : World) (m : Main) (reg : Registry) (r : Run)
    (h : (cycle_checks c g w m reg r).2.stopped = false) :
    r.stopped = false ∧
      (cycle_checks c g w m reg r).2.trace.filterMap φ =
        r.trace.filterMap φ ++ (φ MainEvent.keep_alive).toList ++
          (spec_order reg).flatMap (fun p =>
            (φ (MainEvent.check p.f p.arg)).toList ++ (φ MainEvent.keep_alive).toList) ++
          (φ (MainEvent.xusleep swait)).toList ++
          (φ (MainEvent.check CheckFn.check_bin none)).toList ++
          (φ (MainEvent.xusleep (twait m.tint))).toList := by
  rw [cycle_checks_run] at h ⊢
  unfold run_check at h ⊢
  simp only at h ⊢
  rw [emit_stopped_eq, emit_stopped_eq, emit_stopped_eq] at h
  obtain ⟨h1, h2⟩ := spec_run_live φ hφ.1 c g w m.repair_bin (spec_order reg) _ h
  obtain ⟨h3, h4⟩ := do_check_live φ hφ.1 c g w 0 m.repair_bin none _ h1
  obtain ⟨h5, h6⟩ := sync_emits m.sync_it r
  rw [h5] at h3
  refine ⟨h3, ?_⟩
  rw [emit_proj, emit_proj, emit_proj, h2, h4, h6 φ hφ.2.2.2.2]
  simp [emit_stopped_eq, h]

theorem cycle_live {β : Type} (φ : MainEvent → Option β) (hφ : blind φ)
    (c : ErrCodes) (g : Globals) (w : World) (m : Main) (reg : Registry) (r : Run)
    (h : (cycle c g w m reg r).2.stopped = false) :
    r.stopped = false ∧
      (cycle c g w m reg r).2.trace.filterMap φ =
        r.trace.filterMap φ ++ (φ MainEvent.keep_alive).toList ++
          (φ MainEvent.keep_alive).toList ++
          (spec_order reg).flatMap (fun p =>
            (φ (MainEvent.check p.f p.arg)).toList ++ (φ MainEvent.keep_alive).toList) ++
          (φ (MainEvent.xusleep swait)).toList ++
          (φ (MainEvent.check CheckFn.check_bin none)).toList ++
          (φ (MainEvent.xusleep (twait m.tint))).toList := by
  unfold cycle at h ⊢
  obtain ⟨h1, h2⟩ := cycle_checks_live φ hφ c g w m reg _ h
  obtain ⟨h3, h4⟩ := write_sentinel_live φ hφ c g w m r h1
  exact ⟨h3, by rw [h2, h4]⟩

theorem main_loop_stopped (c : ErrCodes) (g : Globals) (w : World) (m : Main) (fuel : Nat)
    (count : Int) (reg : Registry) (r : Run) (h : r.stopped = true) :
    main_loop c g w m fuel count reg r = (reg, r) := by
  cases fuel with
  | zero => rfl
  | succ n =>
    unfold main_loop
    rw [if_pos h]

theorem main_loop_cycle_stopped (c : ErrCodes) (g : Globals) (w : World) (m : Main)
    (fuel : Nat) (count : Int) (reg : Registry) (r : Run) (h0 : r.stopped = false)
    (hs : w.sigterm r.trace.length = false) (h : (cycle c g w m reg r).2.stopped = true) :
    main_loop c g w m (fuel + 1) count reg r = cycle c g w m reg r := by
  unfold main_loop
  rw [if_neg (by simp [h0]), if_neg (by simp [hs])]
  simp only
  split
  · rw [emit_stopped _ _ h]
    unfold stop
    cases hc : cycle c g w m reg r with
    | mk a b =>
      rw [hc] at h
      cases b
      simp_all
  · exact main_loop_stopped c g w m fuel _ _ _ h

theorem pets_eq (t : List MainEvent) : pets t = (t.filterMap pet_of).length := by
  unfold pets
  induction t with
  | nil => rfl
  | cons e es ih =>
    cases e <;> simp_all [List.count_cons, List.filterMap_cons, pet_of]

theorem checks_of_eq (t : List MainEvent) : checks_of t = t.filterMap check_of := by
  unfold checks_of
  congr 1

theorem sleeps_of_eq (t : List MainEvent) : sleeps_of t = t.filterMap sleep_of := by
  unfold sleeps_of
  congr 1

theorem blind_pet : blind pet_of := ⟨fun _ => rfl, fun _ => rfl, rfl, rfl, rfl⟩

theorem blind_check : blind check_of := ⟨fun _ => rfl, fun _ => rfl, rfl, rfl, rfl⟩

theorem blind_sleep : blind sleep_of := ⟨fun _ => rfl, fun _ => rfl, rfl, rfl, rfl⟩

theorem spec_order_length (reg : Registry) : (spec_order reg).length = 4 + reg.size := by
  unfold spec_order Registry.size
  simp only [List.length_append, List.length_map, List.length_cons, List.length_nil]
  omega

theorem emit_mk (e : MainEvent) (t : List MainEvent) :
    emit e { trace := t, stopped := false } = { trace := t ++ [e], stopped := false } := by
  unfold emit
  simp

theorem write_sentinel_open_fails (c : ErrCodes) (g : Globals) (w : World) (m : Main)
    (t : List MainEvent) (path : String) (hwf : m.write_file = some path)
    (hfd : w.open_fd t.length = -1) :
    write_sentinel c g w m { trace := t, stopped := false } =
      { trace := t ++ [MainEvent.open_file path, MainEvent.panic, MainEvent.exit 1],
        stopped := true } := by
  unfold write_sentinel
  simp only [hwf, hfd, if_true, emit_mk, stop, List.append_assoc, List.singleton_append]
  rfl

theorem write_sentinel_write_fails (c : ErrCodes) (g : Globals) (w : World) (m : Main)
    (t : List MainEvent) (path : String) (hwf : m.write_file = some path)
    (hfd : w.open_fd t.length ≠ -1) (hret : w.write_ret (t.length + 1) ≠ 1) :
    write_sentinel c g w m { trace := t, stopped := false } =
      { trace := t ++ [MainEvent.open_file path, MainEvent.write, MainEvent.close,
          MainEvent.panic, MainEvent.exit 1],
        stopped := true } := by
  unfold write_sentinel
  simp only [hwf, hfd, if_false, emit_mk, stop, List.append_assoc, List.singleton_append,
    List.length_append, List.length_singleton, hret]
  rfl

theorem write_sentinel_written (c : ErrCodes) (g : Globals) (w : World) (m : Main)
    (t : List MainEvent) (path : String) (hwf : m.write_file = some path)
    (hfd : w.open_fd t.length ≠ -1) (hret : w.write_ret (t.length + 1) = 1) :
    write_sentinel c g w m { trace := t, stopped := false } =
      emit MainEvent.close
        (run_wd_action c g w (w.keep_alive (t.length + 2)) m.repair_bin none
          { trace := t ++ [MainEvent.open_file path, MainEvent.write, MainEvent.keep_alive],
            stopped := false }).2 := by
  unfold write_sentinel run_keep_alive
  simp only [hwf, hfd, if_false, emit_mk, List.append_assoc, List.singleton_append,
    List.length_append, List.length_singleton, hret, if_true, List.length_cons,
    List.length_nil]
  rfl

theorem write_sentinel_absent (c : ErrCodes) (g : Globals) (w : World) (m : Main)
    (t : List MainEvent) (hwf : m.write_file = none) :
    write_sentinel c g w m { trace := t, stopped := false } =
      (run_wd_action c g w (w.keep_alive t.length) m.repair_bin none
        { trace := t ++ [MainEvent.keep_alive], stopped := false }).2 := by
  unfold write_sentinel run_keep_alive
  simp only [hwf, emit_mk]

theorem do_check_spec (c : ErrCodes) (g : Globals) (w : World) (res : Int)
    (rbinary : Option String) (act : Option list) (r : Run) :
    do_check c g w res rbinary act r = spec_handle c g w rbinary res act r := by
  cases hs : r.stopped
  · obtain ⟨t, st⟩ := r
    simp only at hs
    subst hs
    unfold do_check spec_handle run_keep_alive run_wd_action
    simp only [Bool.false_eq_true, if_false]
    cases hany : (wd_action c g (w.oracle t.length) res rbinary act).events.any
        Event.is_shutdown
    · simp only [emit_mk, Bool.false_eq_true, if_false, List.length_append,
        List.length_singleton]
    · simp only [if_true]
      rw [emit_stopped _ _ rfl]
      simp only [if_true]
  · rw [do_check_stopped c g w res rbinary act r hs]
    unfold spec_handle
    rw [if_pos hs]

theorem loop_step_spec (c : ErrCodes) (g : Globals) (w : World) (rbinary : Option String)
    (r : Run) (f : CheckFn) (arg : Option String) (act : Option list) :
    do_check c g w (run_check w f arg r).1 rbinary act (run_check w f arg r).2 =
      spec_step c g w rbinary r { f := f, arg := arg, act := act } := by
  cases hs : r.stopped
  · obtain ⟨t, st⟩ := r
    simp only at hs
    subst hs
    unfold spec_step run_check
    simp only [Bool.false_eq_true, if_false, emit_mk]
    exact do_check_spec c g w _ rbinary act _
  · unfold spec_step run_check
    rw [if_pos hs, emit_stopped _ r hs]
    exact do_check_stopped c g w _ rbinary act r hs

theorem loop_run_spec (c : ErrCodes) (g : Globals) (w : World) (rbinary : Option String)
    (plan : List Planned) :
    ∀ r : Run, loop_run c g w rbinary plan r = spec_run c g w rbinary plan r := by
  induction plan with
  | nil => intro r; rfl
  | cons p ps ih =>
    intro r
    show loop_run c g w rbinary ps (loop_step c g w rbinary r p) =
      spec_run c g w rbinary ps (spec_step c g w rbinary r p).2
    rw [ih]
    congr 1
    unfold loop_step
    rw [loop_step_spec]

theorem flatMap_single {α β : Type} (l : List α) (f : α → β) :
    l.flatMap (fun a => [f a]) = l.map f := by
  induction l with
  | nil => rfl
  | cons a rest ih => rw [List.flatMap_cons, ih]; rfl

theorem twait_exact (tint : Int) (h1 : 0 < tint) (h2 : tint ≤ 2147) :
    twait tint = tint * 1000000 - 50000 := by
  have h := to_int_eq (tint * 1000000) (by omega) (by omega)
  unfold twait swait
  rw [h]
  omega

/-! ## Classification (`wd_action`) -/

/-- C1: for every entry (or none) and every code among EREBOOT, ERESET, ETOOHOT
and ENOMEM, the `switch` of `wd_action` makes no call at all (so neither
`attempt_repair` nor `repair` runs, whatever the outside world would answer),
leaves the entry as it was, and hands that same code to the shutdown
evaluation. -/
theorem wd_action_unrepairable (c : ErrCodes) (hc : c.distinct) (g : Globals) (o : Oracle)
    (code : Int) (rbinary : Option String) (act : Option list)
    (hcode : code = c.EREBOOT ∨ code = c.ERESET ∨ code = c.ETOOHOT ∨ code = c.ENOMEM) :
    wd_switch c g o code rbinary act = { left := some code, act := act, events := [] } ∧
    wd_action c g o code rbinary act = { act := act, events := shutdown_eval g code } ∧
    (wd_action c g o code rbinary act).act = act ∧
    (wd_action c g o code rbinary act).events =
      (if g.no_act then [] else [Event.do_shutdown code]) ∧
    (∀ e ∈ (wd_action c g o code rbinary act).events, e.is_child = false) := by
  obtain ⟨hne, hsw⟩ := wd_switch_unrepairable c hc g o code rbinary act hcode
  have hact : wd_action c g o code rbinary act = { act := act, events := shutdown_eval g code } := by
    unfold wd_action
    rw [hsw]
    rfl
  have hev : shutdown_eval g code = (if g.no_act then [] else [Event.do_shutdown code]) := by
    unfold shutdown_eval
    rw [if_pos hne]
  refine ⟨hsw, hact, ?_, ?_, ?_⟩
  · rw [hact]
  · rw [hact, ← hev]
  · rw [hact]
    show ∀ e ∈ shutdown_eval g code, e.is_child = false
    rw [hev]
    intro e he
    split at he
    · simp at he
    · simp only [List.mem_singleton] at he
      rw [he]
      rfl

theorem wd_action_unrepairable_witness :
    watch_err.distinct ∧
    wd_action watch_err g60 (world 0 0) 255 (some "/bin/fix") (some (svc 1 100 3)) =
      { act := some (svc 1 100 3), events := [Event.do_shutdown 255] } :=
  ⟨by decide,
    (wd_action_unrepairable watch_err (by decide) g60 (world 0 0) 255 (some "/bin/fix")
      (some (svc 1 100 3)) (by decide)).2.1⟩

/-- C2: for every entry in every prior state, `wd_action` called with ENOERR
leaves the entry with `last_time = 0` and `repair_count = 0`, name and version
kept, and makes no call: no child run, no `do_shutdown`.  Without an entry it
does nothing. -/
theorem wd_action_noerr (c : ErrCodes) (g : Globals) (o : Oracle) (rbinary : Option String)
    (a : list) :
    wd_action c g o ENOERR rbinary (some a) =
      { act := some { a with last_time := 0, repair_count := 0 }, events := [] } ∧
    wd_action c g o ENOERR rbinary none = { act := none, events := [] } := by
  constructor <;> simp [wd_action, wd_switch]

/-! ## The re-try window (`attempt_repair`) -/

/-- C3, as stated, fails on the code where the elapsed time does not fit the
`int` it is converted to.  With `retry_timeout = 60` and `last_time = 1`, at
`now = 2^31 + 1` the elapsed time `2^31` exceeds 60, yet the call defers: it
returns ENOERR, runs nothing and leaves the entry as it was.  And with
`last_time = 2^32`, at `now = 100` the elapsed time is below 60, yet the call
does not defer: the re-try block leaves `timeout` set and the repair binary is
run. -/
theorem attempt_repair_retry_window_counterexample :
    (g60.retry_timeout > 0 ∧ (svc 0 1 0).last_time ≠ 0 ∧
      (world 2147483649 0).gettime - (svc 0 1 0).last_time > g60.retry_timeout ∧
      retry_check g60 (world 2147483649 0) (some (svc 0 1 0)) = (false, some (svc 0 1 0)) ∧
      attempt_repair g60 (world 2147483649 0) 5 (some "/bin/fix") (some (svc 0 1 0)) =
        { result := ENOERR, act := some (svc 0 1 0), events := [] }) ∧
    ((svc 0 4294967296 0).last_time ≠ 0 ∧
      (world 100 0).gettime - (svc 0 4294967296 0).last_time ≤ g60.retry_timeout ∧
      retry_check g60 (world 100 0) (some (svc 0 4294967296 0)) =
        (true, some (svc 0 4294967296 0)) ∧
      attempt_repair g60 (world 100 0) 5 (some "/bin/fix") (some (svc 0 4294967296 0)) =
        { result := 0, act := some (svc 0 0 1),
          events := [Event.run_func_as_child 60 4 [some "/bin/fix", some "/bin/fix", some "5",
            some "svc", none, none]] }) := by
  decide

/-- C3, amended: with `retry_timeout = T > 0` and an entry `a`, for every
current time `now`: (i) if `a.last_time` is 0, `attempt_repair` sets it to
`now`, returns ENOERR, runs nothing and leaves `repair_count`; (ii) if
`a.last_time = t0` is set, `now - t0 <= T` and `now - t0 >= -2^31`, it returns
ENOERR with the entry unchanged and runs nothing; (iii) if `a.last_time = t0`
is set, `now - t0 > T` and `now - t0 < 2^31`, it does not defer: the re-try
block leaves `timeout` set with the entry unchanged and the call goes through
the attempt-count block to `repair`; (iv) hence, once the timer is started,
every further failure inside the window defers and leaves the entry as it
is. -/
theorem attempt_repair_retry_window (g : Globals) (hT : g.retry_timeout > 0) (o : Oracle)
    (result : Int) (rbinary : Option String) (a : list) :
    (a.last_time = 0 →
      attempt_repair g o result rbinary (some a) =
        { result := ENOERR, act := some { a with last_time := o.gettime }, events := [] }) ∧
    (a.last_time ≠ 0 → -2147483648 ≤ o.gettime - a.last_time →
      o.gettime - a.last_time ≤ g.retry_timeout →
      attempt_repair g o result rbinary (some a) =
        { result := ENOERR, act := some a, events := [] }) ∧
    (a.last_time ≠ 0 → o.gettime - a.last_time < 2147483648 →
      o.gettime - a.last_time > g.retry_timeout →
      retry_check g o (some a) = (true, some a) ∧
      attempt_repair g o result rbinary (some a) =
        (if (repair_gate g (some a)).1 then
          { result := (repair g o (select_binary rbinary (some a)) result a.name a.version).1
            act := (repair_gate g (some a)).2
            events := (repair g o (select_binary rbinary (some a)) result a.name a.version).2 }
        else
          { result := result, act := (repair_gate g (some a)).2, events := [] })) ∧
    (a.last_time ≠ 0 →
      ∀ calls : List Call,
        (∀ k ∈ calls, -2147483648 ≤ k.o.gettime - a.last_time ∧
          k.o.gettime - a.last_time ≤ g.retry_timeout) →
        attempt_steps g (some a) calls =
          calls.map (fun _ => { result := ENOERR, act := some a, events := [] }) ∧
        attempt_run g (some a) calls = some a) := by
  refine ⟨?_, ?_, ?_, ?_⟩
  · intro h0
    have h := retry_check_first g o a hT h0
    rw [attempt_repair_defer g o result rbinary (some a) (by rw [h]), h]
  · intro h0 hlo hd
    have h := retry_check_within g o a hT h0 hlo hd
    rw [attempt_repair_defer g o result rbinary (some a) (by rw [h]), h]
  · intro h0 hhi hd
    have h := retry_check_elapsed g o a hT h0 hhi hd
    refine ⟨h, ?_⟩
    rw [attempt_repair_act g o result rbinary (some a) (by rw [h]), h]
    rfl
  · intro h0 calls
    induction calls with
    | nil => intro _; exact ⟨rfl, rfl⟩
    | cons k ks ih =>
      intro hk
      have hk0 := hk k (List.mem_cons_self k ks)
      have h := retry_check_within g k.o a hT h0 hk0.1 hk0.2
      have hstep : attempt_repair g k.o k.result k.rbinary (some a) =
          { result := ENOERR, act := some a, events := [] } := by
        rw [attempt_repair_defer g k.o k.result k.rbinary (some a) (by rw [h]), h]
      have ih2 := ih (fun k2 hk2 => hk k2 (List.mem_cons_of_mem k hk2))
      constructor
      · show attempt_repair g k.o k.result k.rbinary (some a) ::
          attempt_steps g (attempt_repair g k.o k.result k.rbinary (some a)).act ks = _
        rw [hstep, List.map_cons]
        exact congrArg _ ih2.1
      · show attempt_run g (attempt_repair g k.o k.result k.rbinary (some a)).act ks = _
        rw [hstep]
        exact ih2.2

theorem attempt_repair_retry_window_witness :
    g60.retry_timeout > 0 ∧
    attempt_repair g60 (world 100 0) 5 (some "/bin/fix") (some (svc 0 0 0)) =
      { result := ENOERR, act := some (svc 0 100 0), events := [] } ∧
    attempt_repair g60 (world 160 0) 5 (some "/bin/fix") (some (svc 0 100 0)) =
      { result := ENOERR, act := some (svc 0 100 0), events := [] } ∧
    retry_check g60 (world 161 0) (some (svc 0 100 0)) = (true, some (svc 0 100 0)) ∧
    attempt_steps g60 (some (svc 0 100 0)) [call5 110 0, call5 120 0] =
      [{ result := ENOERR, act := some (svc 0 100 0), events := [] },
       { result := ENOERR, act := some (svc 0 100 0), events := [] }] :=
  ⟨by decide,
    (attempt_repair_retry_window g60 (by decide) (world 100 0) 5 (some "/bin/fix")
      (svc 0 0 0)).1 (by decide),
    (attempt_repair_retry_window g60 (by decide) (world 160 0) 5 (some "/bin/fix")
      (svc 0 100 0)).2.1 (by decide) (by decide) (by decide),
    ((attempt_repair_retry_window g60 (by decide) (world 161 0) 5 (some "/bin/fix")
      (svc 0 100 0)).2.2.1 (by decide) (by decide) (by decide)).1,
    ((attempt_repair_retry_window g60 (by decide) (world 0 0) 5 (some "/bin/fix")
      (svc 0 100 0)).2.2.2 (by decide) [call5 110 0, call5 120 0] (by decide)).1⟩

/-- C4: with `retry_timeout = 0`, for every entry and every result,
`attempt_repair` never defers: the re-try block leaves `timeout` set and the
entry untouched, and the call either is refused by the attempt count (exactly
when `repair_max > 0` and the incremented `repair_count`, an `int`, exceeds
it; the result is then returned unchanged and nothing runs) or invokes
`repair`.  It
leaves `last_time` as it was or 0, never the current time, and for a nonzero
result it returns ENOERR only when `repair` was invoked and returned it. -/
theorem attempt_repair_no_retry (g : Globals) (h0 : g.retry_timeout = 0) (o : Oracle)
    (result : Int) (rbinary : Option String) (a : list) :
    retry_check g o (some a) = (true, some a) ∧
    (g.repair_max > 0 ∧ to_int (a.repair_count + 1) > g.repair_max →
      (repair_gate g (some a)).1 = false ∧
      attempt_repair g o result rbinary (some a) =
        { result := result, act := some { a with repair_count := to_int (a.repair_count + 1) },
          events := [] }) ∧
    (¬ (g.repair_max > 0 ∧ to_int (a.repair_count + 1) > g.repair_max) →
      (repair_gate g (some a)).1 = true ∧
      (attempt_repair g o result rbinary (some a)).result =
        (repair g o (select_binary rbinary (some a)) result a.name a.version).1 ∧
      (attempt_repair g o result rbinary (some a)).events =
        (repair g o (select_binary rbinary (some a)) result a.name a.version).2) ∧
    (∀ a2, (attempt_repair g o result rbinary (some a)).act = some a2 →
      a2.last_time = a.last_time ∨ a2.last_time = 0) ∧
    (result ≠ ENOERR → (attempt_repair g o result rbinary (some a)).result = ENOERR →
      (repair_gate g (some a)).1 = true ∧
      (repair g o (select_binary rbinary (some a)) result a.name a.version).1 = ENOERR) := by
  have hr : retry_check g o (some a) = (true, some a) :=
    retry_check_off g o (some a) (Or.inl (by omega))
  have hform := attempt_repair_act g o result rbinary (some a) (by rw [hr])
  rw [hr] at hform
  have hname : act_name (some a) = a.name := rfl
  have hver : act_version (some a) = a.version := rfl
  rw [hname, hver] at hform
  by_cases hcap : g.repair_max > 0 ∧ to_int (a.repair_count + 1) > g.repair_max
  · have hg := repair_gate_capped g a hcap.1 hcap.2
    rw [hg] at hform
    simp only [Bool.false_eq_true, if_false] at hform
    refine ⟨hr, fun _ => ⟨by rw [hg], hform⟩, fun h => absurd hcap h, ?_, ?_⟩
    · intro a2 h2
      rw [hform] at h2
      simp only [Option.some.injEq] at h2
      left
      rw [← h2]
    · intro hne hz
      rw [hform] at hz
      exact absurd hz hne
  · have hg : ∃ a1, repair_gate g (some a) = (true, some a1) ∧
        (a1.last_time = a.last_time ∨ a1.last_time = 0) := by
      by_cases hmax : g.repair_max > 0
      · have hc : ¬ to_int (a.repair_count + 1) > g.repair_max := fun h => hcap ⟨hmax, h⟩
        exact ⟨_, repair_gate_counted g a hmax hc, Or.inr rfl⟩
      · exact ⟨a, repair_gate_unlimited g (some a) (Or.inl (by omega)), Or.inl rfl⟩
    obtain ⟨a1, hg1, hg2⟩ := hg
    rw [hg1] at hform
    simp only [if_true] at hform
    refine ⟨hr, fun h => absurd h hcap, fun _ => ⟨by rw [hg1], by rw [hform], by rw [hform]⟩,
      ?_, ?_⟩
    · intro a2 h2
      rw [hform] at h2
      simp only [Option.some.injEq] at h2
      rw [← h2]
      exact hg2
    · intro _ hz
      rw [hform] at hz
      exact ⟨by rw [hg1], hz⟩

theorem attempt_repair_no_retry_witness :
    g_soft.retry_timeout = 0 ∧
    retry_check g_soft (world 100 7) (some (svc 0 0 1)) = (true, some (svc 0 0 1)) ∧
    (attempt_repair g_soft (world 100 7) 5 (some "/bin/fix") (some (svc 0 0 1))).result = 7 ∧
    attempt_repair g_soft (world 100 7) 5 (some "/bin/fix") (some (svc 0 0 2)) =
      { result := 5, act := some (svc 0 0 3), events := [] } ∧
    (attempt_repair g_soft (world 100 7) 5 (some "/bin/fix")
      (some (svc 0 0 2147483647))).result = 7 :=
  ⟨by decide,
    (attempt_repair_no_retry g_soft (by decide) (world 100 7) 5 (some "/bin/fix")
      (svc 0 0 1)).1,
    ((attempt_repair_no_retry g_soft (by decide) (world 100 7) 5 (some "/bin/fix")
      (svc 0 0 1)).2.2.1 (by decide)).2.1,
    ((attempt_repair_no_retry g_soft (by decide) (world 100 7) 5 (some "/bin/fix")
      (svc 0 0 2)).2.1 (by decide)).2,
    ((attempt_repair_no_retry g_soft (by decide) (world 100 7) 5 (some "/bin/fix")
      (svc 0 0 2147483647)).2.2.1 (by decide)).2.1⟩

/-! ## The attempt count (`attempt_repair`) -/

/-- C5, as stated, fails on the code for `repair_max = INT_MAX`: after
2147483647 failures acted upon at once, each of which invoked `repair`, the
entry has `repair_count = 2147483647`; on the next one, the (N+1)-th, the
increment wraps around to `INT_MIN`, which does not exceed `repair_max`, so
`repair` is invoked once more: the child is run and its status 0 is returned
instead of the result code 5. -/
theorem repair_max_cap_counterexample :
    (g_max.repair_max = (2147483647 : Nat) ∧ (svc 0 0 0).repair_count = 0) ∧
    (attempt_run g_max (some (svc 0 0 0)) (List.replicate 2147483647 (call5 0 0)) =
        some { svc 0 0 0 with repair_count := (svc 0 0 0).repair_count + (2147483647 : Nat) } ∧
      act_now_count g_max (some (svc 0 0 0)) (List.replicate 2147483647 (call5 0 0)) =
        2147483647) ∧
    ({ svc 0 0 0 with repair_count := (svc 0 0 0).repair_count + (2147483647 : Nat) } =
      svc 0 0 2147483647) ∧
    (retry_check g_max (call5 0 0).o (some (svc 0 0 2147483647))).1 = true ∧
    (repair_gate g_max (some (svc 0 0 2147483647))).1 = true ∧
    attempt_repair g_max (call5 0 0).o (call5 0 0).result (call5 0 0).rbinary
        (some (svc 0 0 2147483647)) =
      { result := 0, act := some (svc 0 0 (-2147483648)),
        events := [Event.run_func_as_child 60 4 [some "/bin/fix", some "/bin/fix", some "5",
          some "svc", none, none]] } :=
  ⟨⟨by decide, by decide⟩,
    attempt_run_replicate g_max (by decide) (by decide) (by decide) (call5 0 0) 2147483647
      (svc 0 0 0) rfl (by decide) (by decide),
    by decide, by decide, by decide, by decide⟩

/-- C5, amended: with `repair_max = N`, `0 < N < 2147483647`, and an entry
whose `repair_count` is 0, take any run of failing `attempt_repair` calls on it
(no ENOERR classification in between) and a further call that is acted upon at
once.  If fewer than N calls of the run were acted upon at once, the further
call invokes `repair` and returns what `repair` returns; if exactly N were, the
further call, the (N+1)-th, does not invoke `repair`: it makes no child run and
returns the original result code, which `wd_action` hands to the shutdown
evaluation. -/
theorem repair_max_cap (c : ErrCodes) (g : Globals) (N : Nat) (hN : 0 < N)
    (hint : N < 2147483647) (hmax : g.repair_max = N) (a : list) (h0 : a.repair_count = 0)
    (calls : List Call) (st : Option list) (hst : attempt_run g (some a) calls = st) (k : Call)
    (hnow : (retry_check g k.o st).1 = true) :
    (act_now_count g (some a) calls < N →
      (repair_gate g (retry_check g k.o st).2).1 = true ∧
      (attempt_repair g k.o k.result k.rbinary st).result =
        (repair g k.o (select_binary k.rbinary st) k.result (act_name st) (act_version st)).1 ∧
      (attempt_repair g k.o k.result k.rbinary st).events =
        (repair g k.o (select_binary k.rbinary st) k.result (act_name st) (act_version st)).2) ∧
    (act_now_count g (some a) calls = N →
      (repair_gate g (retry_check g k.o st).2).1 = false ∧
      (attempt_repair g k.o k.result k.rbinary st).result = k.result ∧
      (attempt_repair g k.o k.result k.rbinary st).events = [] ∧
      (repairable c k.result →
        (wd_switch c g k.o k.result k.rbinary st).left = some k.result ∧
        (wd_action c g k.o k.result k.rbinary st).events =
          (if g.no_act then [] else [Event.do_shutdown k.result]))) := by
  have hpos : g.repair_max > 0 := by rw [hmax]; exact_mod_cast hN
  have hstate : act_now_count g (some a) calls ≤ N →
      ∃ a2, st = some a2 ∧ a2.repair_count = (act_now_count g (some a) calls : Int) := by
    intro hle
    have hle2 : (act_now_count g (some a) calls : Int) ≤ N := by exact_mod_cast hle
    have hint2 : (N : Int) < 2147483647 := by exact_mod_cast hint
    obtain ⟨a2, h2, hcount⟩ := attempt_run_count g hpos calls a (by rw [h0]; decide)
      (by rw [h0]; omega)
    rw [hst] at h2
    rw [h0, zero_add] at hcount
    exact ⟨a2, h2, hcount⟩
  have hint2 : (N : Int) < 2147483647 := by exact_mod_cast hint
  constructor
  · intro hlt
    obtain ⟨a2, h2, hcount⟩ := hstate (Nat.le_of_lt hlt)
    subst h2
    have hk := retry_check_true_keeps g k.o (some a2) hnow
    have hform := attempt_repair_act g k.o k.result k.rbinary (some a2) hnow
    rw [hk] at hform ⊢
    have hlt2 : (act_now_count g (some a) calls : Int) < N := by exact_mod_cast hlt
    have hti : to_int (a2.repair_count + 1) = a2.repair_count + 1 :=
      to_int_eq _ (by omega) (by omega)
    have hc : ¬ to_int (a2.repair_count + 1) > g.repair_max := by
      rw [hti, hcount, hmax]
      omega
    have hg := repair_gate_counted g a2 hpos hc
    rw [hg] at hform ⊢
    simp only [if_true] at hform
    exact ⟨rfl, by rw [hform], by rw [hform]⟩
  · intro heq
    obtain ⟨a2, h2, hcount⟩ := hstate (Nat.le_of_eq heq)
    subst h2
    have hk := retry_check_true_keeps g k.o (some a2) hnow
    have hform := attempt_repair_act g k.o k.result k.rbinary (some a2) hnow
    rw [hk] at hform ⊢
    have hti : to_int (a2.repair_count + 1) = a2.repair_count + 1 :=
      to_int_eq _ (by omega) (by omega)
    have hc : to_int (a2.repair_count + 1) > g.repair_max := by
      rw [hti, hcount, hmax, heq]
      omega
    have hg := repair_gate_capped g a2 hpos hc
    rw [hg] at hform ⊢
    simp only [Bool.false_eq_true, if_false] at hform
    refine ⟨rfl, by rw [hform], by rw [hform], ?_⟩
    intro hR
    constructor
    · rw [wd_switch_repairable c g k.o k.result k.rbinary (some a2) hR, hform]
    · rw [wd_action_repairable c g k.o k.result k.rbinary (some a2) hR, hform]
      show [] ++ shutdown_eval g k.result = _
      rw [List.nil_append, shutdown_eval_ne g k.result hR.1]

theorem repair_max_cap_witness :
    (0 < 2 ∧ 2 < 2147483647 ∧ g_soft.repair_max = (2 : Nat) ∧ (svc 0 0 0).repair_count = 0 ∧
      attempt_run g_soft (some (svc 0 0 0)) [call5 10 7, call5 20 7] = some (svc 0 0 2) ∧
      (retry_check g_soft (call5 30 7).o (some (svc 0 0 2))).1 = true) ∧
    act_now_count g_soft (some (svc 0 0 0)) [call5 10 7, call5 20 7] = 2 ∧
    (attempt_repair g_soft (call5 30 7).o (call5 30 7).result (call5 30 7).rbinary
      (some (svc 0 0 2))).result = (call5 30 7).result ∧
    (attempt_repair g_soft (call5 30 7).o (call5 30 7).result (call5 30 7).rbinary
      (some (svc 0 0 2))).events = [] :=
  ⟨⟨by decide, by decide, by decide, by decide, by decide, by decide⟩, by decide,
    ((repair_max_cap watch_err g_soft 2 (by decide) (by decide) (by decide) (svc 0 0 0)
      (by decide) [call5 10 7, call5 20 7] (some (svc 0 0 2)) (by decide) (call5 30 7)
      (by decide)).2 (by decide)).2.1,
    ((repair_max_cap watch_err g_soft 2 (by decide) (by decide) (by decide) (svc 0 0 0)
      (by decide) [call5 10 7, call5 20 7] (some (svc 0 0 2)) (by decide) (call5 30 7)
      (by decide)).2 (by decide)).2.2.1⟩

/-- C6, as stated, fails on the code for `repair_max = 0`: with a re-try
window of 60 s and an entry whose timer was started at 100, the failure at
200 is acted upon and the repair binary is run, yet `last_time` is still 100,
not 0; the next failure, at 201, is then acted upon at once again. -/
theorem repair_resets_timer_counterexample :
    g_unlimited.repair_max = 0 ∧
    retry_check g_unlimited (world 200 0) (some (svc 0 100 0)) = (true, some (svc 0 100 0)) ∧
    repair_gate g_unlimited (some (svc 0 100 0)) = (true, some (svc 0 100 0)) ∧
    attempt_repair g_unlimited (world 200 0) 5 (some "/bin/fix") (some (svc 0 100 0)) =
      { result := 0, act := some (svc 0 100 0),
        events := [Event.run_func_as_child 60 4 [some "/bin/fix", some "/bin/fix", some "5",
          some "svc", none, none]] } ∧
    (svc 0 100 0).last_time ≠ 0 ∧
    (retry_check g_unlimited (world 201 0) (some (svc 0 100 0))).1 = true := by
  decide

/-- C6, amended: for every `repair_max > 0`, whenever `attempt_repair` acts at
once on an entry and goes on to invoke `repair`, the entry handed on has
`last_time = 0` (and `repair_count` incremented, one higher below
`INT_MAX`), and that is the entry the call leaves.  For `repair_max <= 0` the call always goes on to `repair` and
the entry, `last_time` included, is left as it was. -/
theorem repair_resets_timer (g : Globals) (o : Oracle) (result : Int)
    (rbinary : Option String) (a : list) (hnow : (retry_check g o (some a)).1 = true) :
    (g.repair_max > 0 → (repair_gate g (retry_check g o (some a)).2).1 = true →
      (repair_gate g (retry_check g o (some a)).2).2 =
        some { a with repair_count := to_int (a.repair_count + 1), last_time := 0 } ∧
      (attempt_repair g o result rbinary (some a)).act =
        some { a with repair_count := to_int (a.repair_count + 1), last_time := 0 } ∧
      (-2147483648 ≤ a.repair_count → a.repair_count < 2147483647 →
        (attempt_repair g o result rbinary (some a)).act =
          some { a with repair_count := a.repair_count + 1, last_time := 0 })) ∧
    (g.repair_max ≤ 0 →
      repair_gate g (retry_check g o (some a)).2 = (true, some a) ∧
      (attempt_repair g o result rbinary (some a)).act = some a) := by
  have hk := retry_check_true_keeps g o (some a) hnow
  have hform := attempt_repair_act g o result rbinary (some a) hnow
  rw [hk] at hform ⊢
  constructor
  · intro hmax hgo
    by_cases hc : to_int (a.repair_count + 1) > g.repair_max
    · rw [repair_gate_capped g a hmax hc] at hgo
      cases hgo
    · have hg := repair_gate_counted g a hmax hc
      rw [hg] at hform ⊢
      simp only [if_true] at hform
      refine ⟨rfl, by rw [hform], ?_⟩
      intro hlo hhi
      rw [hform, to_int_eq _ (by omega) (by omega)]
  · intro hmax
    have hg := repair_gate_unlimited g (some a) (Or.inl hmax)
    rw [hg] at hform ⊢
    simp only [if_true] at hform
    exact ⟨rfl, by rw [hform]⟩

theorem repair_resets_timer_witness :
    (retry_check g60 (world 200 0) (some (svc 0 100 0))).1 = true ∧
    g60.repair_max > 0 ∧
    (attempt_repair g60 (world 200 0) 5 (some "/bin/fix") (some (svc 0 100 0))).act =
      some (svc 0 0 1) :=
  ⟨by decide, by decide,
    ((repair_resets_timer g60 (world 200 0) 5 (some "/bin/fix") (svc 0 100 0) (by decide)).1
      (by decide) (by decide)).2.1⟩

/-! ## The repair binary (`repair`) -/

/-- C7: whenever `attempt_repair`, called for a repairable result R, runs the
repair binary, it makes exactly that one child run and returns the status `s`
the run gives, not R; `wd_action` then calls nothing further if `s = 0`, and
evaluates shutdown with `s` if `s` is not 0 (`do_shutdown s` unless `no_act`
is set). -/
theorem repair_status_returned (c : ErrCodes) (g : Globals) (o : Oracle) (R : Int)
    (rbinary : Option String) (act : Option list) (hR : repairable c R)
    (hrun : (attempt_repair g o R rbinary act).events ≠ [])
    (arg : List (Option String))
    (harg : arg = repair_arg (select_binary rbinary act) R (act_name act) (act_version act))
    (s : Int) (hs : s = o.run_func_as_child g.repair_timeout FLAG_REOPEN_STD_REPAIR arg) :
    (attempt_repair g o R rbinary act).events =
      [Event.run_func_as_child g.repair_timeout FLAG_REOPEN_STD_REPAIR arg] ∧
    (attempt_repair g o R rbinary act).result = s ∧
    (wd_switch c g o R rbinary act).left = some s ∧
    (s = 0 → (wd_action c g o R rbinary act).events =
      [Event.run_func_as_child g.repair_timeout FLAG_REOPEN_STD_REPAIR arg]) ∧
    (s ≠ 0 → (wd_action c g o R rbinary act).events =
      Event.run_func_as_child g.repair_timeout FLAG_REOPEN_STD_REPAIR arg ::
        (if g.no_act then [] else [Event.do_shutdown s])) := by
  have hev : (attempt_repair g o R rbinary act).events =
        [Event.run_func_as_child g.repair_timeout FLAG_REOPEN_STD_REPAIR arg] ∧
      (attempt_repair g o R rbinary act).result = s := by
    by_cases ht : (retry_check g o act).1 = true
    · have hform := attempt_repair_act g o R rbinary act ht
      by_cases hg : (repair_gate g (retry_check g o act).2).1 = true
      · rw [if_pos hg] at hform
        by_cases hbin : (if act_version act = 0 then select_binary rbinary act
            else act_name act) = none
        · rw [repair_null g o _ R _ _ hbin] at hform
          rw [hform] at hrun
          exact absurd rfl hrun
        · rw [repair_run g o _ R _ _ hbin] at hform
          rw [hform, hs, harg]
          exact ⟨rfl, rfl⟩
      · rw [if_neg hg] at hform
        rw [hform] at hrun
        exact absurd rfl hrun
    · rw [attempt_repair_defer g o R rbinary act (by simpa using ht)] at hrun
      exact absurd rfl hrun
  have hact := wd_action_repairable c g o R rbinary act hR
  refine ⟨hev.1, hev.2, ?_, ?_, ?_⟩
  · rw [wd_switch_repairable c g o R rbinary act hR, hev.2]
  · intro h0
    rw [hact, hev.1, hev.2]
    unfold shutdown_eval
    simp [h0, ENOERR]
  · intro h0
    rw [hact, hev.1, hev.2, shutdown_eval_ne g s h0]
    rfl

theorem repair_status_returned_witness :
    repairable watch_err 5 ∧
    (attempt_repair g_soft (world 0 3) 5 (some "/bin/fix") (some (svc 0 0 0))).events ≠ [] ∧
    (attempt_repair g_soft (world 0 3) 5 (some "/bin/fix") (some (svc 0 0 0))).result = 3 ∧
    (wd_action watch_err g_soft (world 0 3) 5 (some "/bin/fix") (some (svc 0 0 0))).events =
      [Event.run_func_as_child 60 4
          [some "/bin/fix", some "/bin/fix", some "5", some "svc", none, none],
        Event.do_shutdown 3] :=
  ⟨by decide, by decide,
    (repair_status_returned watch_err g_soft (world 0 3) 5 (some "/bin/fix")
      (some (svc 0 0 0)) (by decide) (by decide)
      [some "/bin/fix", some "/bin/fix", some "5", some "svc", none, none] (by decide)
      3 (by decide)).2.1,
    (repair_status_returned watch_err g_soft (world 0 3) 5 (some "/bin/fix")
      (some (svc 0 0 0)) (by decide) (by decide)
      [some "/bin/fix", some "/bin/fix", some "5", some "svc", none, none] (by decide)
      3 (by decide)).2.2.2.2 (by decide)⟩

/-- C8: when the binary `repair` would execute, `arg[0]` (the `rbinary`
argument for version 0, the name otherwise), is NULL, `repair` runs no child
and returns the result code R unchanged, for every R, name and version;
consequently a repairable R that `attempt_repair` acts upon at once and sends
to `repair` comes back as R and reaches the shutdown evaluation as R. -/
theorem repair_no_binary (c : ErrCodes) (g : Globals) (o : Oracle) (rbinary : Option String)
    (R : Int) (name : Option String) (version : Int)
    (hnull : (if version = 0 then rbinary else name) = none) :
    repair g o rbinary R name version = (R, []) ∧
    (∀ act : Option list, act_name act = name → act_version act = version →
      (retry_check g o act).1 = true → (repair_gate g (retry_check g o act).2).1 = true →
      repairable c R →
      (attempt_repair g o R rbinary act).result = R ∧
      (attempt_repair g o R rbinary act).events = [] ∧
      (wd_switch c g o R rbinary act).left = some R ∧
      (wd_action c g o R rbinary act).events =
        (if g.no_act then [] else [Event.do_shutdown R])) := by
  refine ⟨repair_null g o rbinary R name version hnull, ?_⟩
  intro act hname hver ht hg hR
  have hsel : (if version = 0 then select_binary rbinary act else name) = none := by
    by_cases hv : version = 0
    · rw [if_pos hv] at hnull ⊢
      unfold select_binary
      rw [hver, hv, if_neg (by decide), hnull]
    · rw [if_neg hv] at hnull ⊢
      exact hnull
  have hform := attempt_repair_act g o R rbinary act ht
  rw [if_pos hg, hname, hver, repair_null g o _ R name version hsel] at hform
  refine ⟨by rw [hform], by rw [hform], ?_, ?_⟩
  · rw [wd_switch_repairable c g o R rbinary act hR, hform]
  · rw [wd_action_repairable c g o R rbinary act hR, hform]
    show [] ++ shutdown_eval g R = _
    rw [List.nil_append, shutdown_eval_ne g R hR.1]

theorem repair_no_binary_witness :
    (if (0 : Int) = 0 then (none : Option String) else some "svc") = none ∧
    repair g60 (world 0 0) none 5 (some "svc") 0 = (5, []) ∧
    (wd_action watch_err g60 (world 0 0) 5 none none).events = [Event.do_shutdown 5] :=
  ⟨by decide,
    (repair_no_binary watch_err g60 (world 0 0) none 5 (some "svc") 0 (by decide)).1,
    ((repair_no_binary watch_err g60 (world 0 0) none 5 none 0 (by decide)).2 none rfl rfl
      (by decide) (by decide) (by decide)).2.2.2⟩

/-! ## Shutdown evaluation (`wd_action`) -/

/-- C9: for every input of `wd_action`, `do_shutdown code` is called if and
only if the `switch` leaves the result `code`, `code` is not ENOERR and
`no_act` is not set; it is called at most once, after everything else; and
with `no_act` set no call of `wd_action` reaches `do_shutdown`, whatever the
result code, so every such call returns to its caller. -/
theorem wd_action_shutdown_iff (c : ErrCodes) (g : Globals) (o : Oracle) (result : Int)
    (rbinary : Option String) (act : Option list) :
    (∀ code : Int, Event.do_shutdown code ∈ (wd_action c g o result rbinary act).events ↔
      ((wd_switch c g o result rbinary act).left = some code ∧ code ≠ ENOERR ∧
        g.no_act = false)) ∧
    (wd_action c g o result rbinary act).events =
      (wd_switch c g o result rbinary act).events ++
        ((wd_action c g o result rbinary act).events.filter Event.is_shutdown) ∧
    ((wd_action c g o result rbinary act).events.filter Event.is_shutdown).length ≤ 1 ∧
    (g.no_act = true → ∀ e ∈ (wd_action c g o result rbinary act).events,
      e.is_shutdown = false) := by
  have hsw := wd_switch_events c g o result rbinary act
  have hfil : (wd_switch c g o result rbinary act).events.filter Event.is_shutdown = [] := by
    rw [List.filter_eq_nil_iff]
    intro e he
    rw [hsw e he]
    decide
  have hnot : ∀ code : Int,
      Event.do_shutdown code ∉ (wd_switch c g o result rbinary act).events := by
    intro code hmem
    have := hsw _ hmem
    cases this
  cases hleft : (wd_switch c g o result rbinary act).left with
  | none =>
    have hact : (wd_action c g o result rbinary act).events =
        (wd_switch c g o result rbinary act).events := by
      unfold wd_action
      simp only [hleft]
    rw [hact, hfil]
    refine ⟨?_, by simp, by simp, fun _ => hsw⟩
    intro code
    constructor
    · intro h
      exact absurd h (hnot code)
    · rintro ⟨h, _⟩
      cases h
  | some r =>
    have hact : (wd_action c g o result rbinary act).events =
        (wd_switch c g o result rbinary act).events ++ shutdown_eval g r := by
      unfold wd_action
      simp only [hleft]
    rw [hact, List.filter_append, hfil, List.nil_append]
    by_cases hr : r ≠ ENOERR
    · cases hno : g.no_act with
      | true =>
        have hse : shutdown_eval g r = [] := by
          rw [shutdown_eval_ne g r hr, hno]
          rfl
        rw [hse]
        refine ⟨?_, by simp, by simp, ?_⟩
        · intro code
          rw [List.append_nil]
          constructor
          · intro h
            exact absurd h (hnot code)
          · rintro ⟨_, _, h⟩
            cases h
        · intro _
          rw [List.append_nil]
          exact hsw
      | false =>
        have hse : shutdown_eval g r = [Event.do_shutdown r] := by
          rw [shutdown_eval_ne g r hr, hno]
          rfl
        rw [hse]
        refine ⟨?_, by simp [Event.is_shutdown], by simp [Event.is_shutdown], ?_⟩
        · intro code
          rw [List.mem_append, List.mem_singleton]
          constructor
          · rintro (h | h)
            · exact absurd h (hnot code)
            · cases h
              exact ⟨rfl, hr, rfl⟩
          · rintro ⟨h, _, _⟩
            cases h
            exact Or.inr rfl
        · intro h
          cases h
    · have hr0 : r = ENOERR := by
        by_contra h
        exact hr h
      have hse : shutdown_eval g r = [] := by
        unfold shutdown_eval
        rw [if_neg hr]
      rw [hse]
      refine ⟨?_, by simp, by simp, ?_⟩
      · intro code
        rw [List.append_nil]
        constructor
        · intro h
          exact absurd h (hnot code)
        · rintro ⟨h, hne, _⟩
          cases h
          exact absurd hr0 hne
      · intro _
        rw [List.append_nil]
        exact hsw

theorem wd_action_shutdown_iff_witness :
    g_dry.no_act = true ∧
    Event.do_shutdown 255 ∉ (wd_action watch_err g_dry (world 0 0) 255 none none).events ∧
    Event.do_shutdown 255 ∈ (wd_action watch_err g60 (world 0 0) 255 none none).events :=
  ⟨by decide,
    fun h =>
      Bool.noConfusion
        (((wd_action_shutdown_iff watch_err g_dry (world 0 0) 255 none none).1 255).mp h).2.2,
    ((wd_action_shutdown_iff watch_err g60 (world 0 0) 255 none none).1 255).mpr
      (by decide)⟩

/-- C10: for every result code, binary and name, the array `repair` hands to
the child runner is `[rbinary, rbinary, decimal result, name, NULL, NULL]` for
version 0, that is the vector `[rbinary, rbinary, decimal result, name]` with
the name left off when it is NULL, and `[name, name, "repair", decimal result,
name, NULL]` for version 1; `attempt_repair` passes the name of the entry as
the binary for version 1 and the global repair binary otherwise.  For the name
`svc` and the code 5 this gives `svc svc repair 5 svc` for version 1, and
`/bin/fix /bin/fix 5 svc` for version 0 with the repair binary `/bin/fix`. -/
theorem repair_argv (g : Globals) (o : Oracle) (result : Int) :
    (∀ (rb : String) (name : Option String),
      (repair g o (some rb) result name 0).2 =
        [Event.run_func_as_child g.repair_timeout FLAG_REOPEN_STD_REPAIR
          [some rb, some rb, some (toString result), name, none, none]] ∧
      argv_of (repair_arg (some rb) result name 0) =
        [rb, rb, toString result] ++ name.toList) ∧
    (∀ (rb : Option String) (n : String),
      (repair g o rb result (some n) 1).2 =
        [Event.run_func_as_child g.repair_timeout FLAG_REOPEN_STD_REPAIR
          [some n, some n, some "repair", some (toString result), some n, none]] ∧
      argv_of (repair_arg rb result (some n) 1) = [n, n, "repair", toString result, n]) ∧
    (∀ (rb : Option String) (a : list),
      select_binary rb (some a) = (if a.version = 1 then a.name else rb)) ∧
    (∀ rb : Option String, select_binary rb none = rb) ∧
    (attempt_repair g_soft (world 0 0) 5 (some "/bin/fix") (some (svc 1 0 0))).events =
      [Event.run_func_as_child 60 4
        [some "svc", some "svc", some "repair", some "5", some "svc", none]] ∧
    argv_of (repair_arg (select_binary (some "/bin/fix") (some (svc 1 0 0))) 5 (some "svc") 1) =
      ["svc", "svc", "repair", "5", "svc"] ∧
    (attempt_repair g_soft (world 0 0) 5 (some "/bin/fix") (some (svc 0 0 0))).events =
      [Event.run_func_as_child 60 4
        [some "/bin/fix", some "/bin/fix", some "5", some "svc", none, none]] ∧
    argv_of (repair_arg (select_binary (some "/bin/fix") (some (svc 0 0 0))) 5 (some "svc") 0) =
      ["/bin/fix", "/bin/fix", "5", "svc"] := by
  refine ⟨?_, ?_, ?_, ?_, by decide, by decide, by decide, by decide⟩
  · intro rb name
    constructor
    · rw [repair_run g o (some rb) result name 0 (by simp)]
      rfl
    · cases name <;> rfl
  · intro rb n
    constructor
    · rw [repair_run g o rb result (some n) 1 (by simp)]
      rfl
    · rfl
  · intro rb a
    rfl
  · intro rb
    rfl

/-! ## Further classification and escalation facts -/

/-- C11: for every entry (or none), `wd_action` called with EDONTKNOW does
nothing at all: the entry is left exactly as it was (`last_time` and
`repair_count` neither reset nor advanced) and no call is made, so no repair
binary is run and `do_shutdown` is not called. -/
theorem wd_action_dontknow (c : ErrCodes) (hc : c.distinct) (g : Globals) (o : Oracle)
    (rbinary : Option String) (act : Option list) :
    wd_switch c g o c.EDONTKNOW rbinary act = { left := none, act := act, events := [] } ∧
    wd_action c g o c.EDONTKNOW rbinary act = { act := act, events := [] } := by
  obtain ⟨⟨h1, _⟩, _⟩ := distinct_facts c hc
  have hsw : wd_switch c g o c.EDONTKNOW rbinary act =
      { left := none, act := act, events := [] } := by
    unfold wd_switch
    rw [if_neg h1, if_pos rfl]
  refine ⟨hsw, ?_⟩
  unfold wd_action
  rw [hsw]

theorem wd_action_dontknow_witness :
    watch_err.distinct ∧
    wd_action watch_err g60 (world 200 7) 245 (some "/bin/fix") (some (svc 0 100 1)) =
      { act := some (svc 0 100 1), events := [] } :=
  ⟨by decide,
    (wd_action_dontknow watch_err (by decide) g60 (world 200 7) (some "/bin/fix")
      (some (svc 0 100 1))).2⟩

/-- C17, as stated, fails on the code for sequences of 2^31 calls: with
`repair_max = 1`, no re-try window and `no_act` set, the first failure invokes
`repair`; the next 2147483646 are refused while `repair_count` climbs to
`INT_MAX`; on the one after, the increment wraps around to `INT_MIN`, which
does not exceed `repair_max`, and `repair` is invoked a second time with no
ENOERR classification in between. -/
theorem repair_budget_counterexample :
    ((0 : Nat) < 1 ∧ g_one.repair_max = (1 : Nat) ∧ g_one.no_act = true ∧
      (svc 0 0 0).repair_count = 0) ∧
    repair_tally watch_err g_one (some (svc 0 0 0)) 0
      ([call5 0 0] ++ List.replicate 2147483646 (call5 0 0) ++ [call5 0 0]) = 2 ∧
    child_tally watch_err g_one (some (svc 0 0 0)) 0
      ([call5 0 0] ++ List.replicate 2147483646 (call5 0 0) ++ [call5 0 0]) = 2 := by
  have h1 : wd_run watch_err g_one (some (svc 0 0 0)) [call5 0 0] = some (svc 0 0 1) := by
    decide
  have hrun := wd_run_refused watch_err g_one (by decide) (by decide) (call5 0 0) (by decide)
    2147483646 (svc 0 0 1) 1 1 (by decide) (by decide)
  have h2 : ({ svc 0 0 1 with repair_count := (svc 0 0 1).repair_count + (2147483646 : Nat) } :
      list) = svc 0 0 2147483647 := by
    decide
  rw [h2] at hrun
  refine ⟨by decide, ?_, ?_⟩
  · rw [repair_tally_append, repair_tally_append, wd_run_append, h1, hrun.1]
    have t1 : repair_tally watch_err g_one (some (svc 0 0 0)) 0 [call5 0 0] = 1 := by decide
    rw [t1, hrun.2.1]
    decide
  · rw [child_tally_append, child_tally_append, wd_run_append, h1, hrun.1]
    have t1 : child_tally watch_err g_one (some (svc 0 0 0)) 0 [call5 0 0] = 1 := by decide
    rw [t1, hrun.2.2]
    decide

/-- C17, amended: with `repair_max = N > 0`, for every entry whose
`repair_count` is 0 and every sequence of fewer than 2^31 `wd_action` calls on
it (any result codes, times and child statuses, any setting of `no_act`), the
number of calls of `repair` made for the entry since its last ENOERR
classification never exceeds N, and so does the number of runs of the repair
binary.  A call of `wd_action` makes exactly the calls of `repair` followed by
the shutdown evaluation of its result when it invokes `repair`, and no child
run otherwise.  A call other than an ENOERR one never lowers a `repair_count`
below `INT_MAX`, whatever status the child returns, so a repair that exits 0
does not restore the budget; an ENOERR call sets the count back to 0. -/
theorem repair_budget (c : ErrCodes) (g : Globals) (N : Nat) (hN : 0 < N)
    (hmax : g.repair_max = N) (a : list) (h0 : a.repair_count = 0) (calls : List Call)
    (hlen : calls.length < 2147483648) :
    repair_tally c g (some a) 0 calls ≤ N ∧
    child_tally c g (some a) 0 calls ≤ N ∧
    (∀ (k : Call) (act : Option list),
      (invokes_repair c g k act = true →
        (wd_action c g k.o k.result k.rbinary act).events =
          (repair g k.o (select_binary k.rbinary act) k.result (act_name act)
              (act_version act)).2 ++
            shutdown_eval g (repair g k.o (select_binary k.rbinary act) k.result
              (act_name act) (act_version act)).1) ∧
      (invokes_repair c g k act = false →
        ∀ e ∈ (wd_action c g k.o k.result k.rbinary act).events, e.is_child = false)) ∧
    (∀ (k : Call) (a1 : list), k.result ≠ ENOERR → -2147483648 ≤ a1.repair_count →
      a1.repair_count < 2147483647 →
      ∃ a2, (wd_action c g k.o k.result k.rbinary (some a1)).act = some a2 ∧
        a1.repair_count ≤ a2.repair_count ∧
        (invokes_repair c g k (some a1) = true → a2.repair_count = a1.repair_count + 1)) ∧
    (∀ (k : Call) (a1 : list), k.result = ENOERR →
      (wd_action c g k.o k.result k.rbinary (some a1)).act =
        some { a1 with last_time := 0, repair_count := 0 }) := by
  have hpos : g.repair_max > 0 := by rw [hmax]; exact_mod_cast hN
  have htally : repair_tally c g (some a) 0 calls ≤ N := by
    have hl : (calls.length : Int) < 2147483648 := by exact_mod_cast hlen
    have h := repair_tally_le c g hpos calls a 0 (by rw [h0]; rfl) (by omega)
      (by rw [h0]; omega)
    rw [hmax] at h
    exact_mod_cast h
  refine ⟨htally, ?_, ?_, ?_, ?_⟩
  · exact Nat.le_trans (child_tally_le c g calls (some a) 0 0 (Nat.le_refl 0)) htally
  · intro k act
    exact invokes_repair_link c g k act
  · intro k a1 hne hlo hhi
    have hti : to_int (a1.repair_count + 1) = a1.repair_count + 1 :=
      to_int_eq _ (by omega) (by omega)
    by_cases hR : repairable c k.result
    · rw [wd_action_repairable c g k.o k.result k.rbinary (some a1) hR]
      obtain ⟨a2, e1, e2⟩ := attempt_repair_count g hpos k.o k.result k.rbinary a1
      rw [hti] at e2
      refine ⟨a2, e1, ?_, ?_⟩
      · rw [e2]
        split <;> omega
      · intro hinv
        have ht : (retry_check g k.o (some a1)).1 = true := by
          unfold invokes_repair at hinv
          simp only [Bool.and_eq_true] at hinv
          exact hinv.1.2
        rw [e2, ht]
        rfl
    · refine ⟨a1, wd_action_keeps c g k.o k.result k.rbinary (some a1) hne hR, le_refl _, ?_⟩
      intro hinv
      unfold invokes_repair at hinv
      simp [hR] at hinv
  · intro k a1 he
    rw [he]
    simp [wd_action, wd_switch]

theorem repair_budget_witness :
    (0 < 2 ∧ g_soft.repair_max = (2 : Nat) ∧ (svc 0 0 0).repair_count = 0 ∧
      [call_of 5 10 0, call_of 5 20 0, call_of 5 30 0, call_of 245 40 0,
        call_of 5 50 0].length < 2147483648) ∧
    repair_tally watch_err g_soft (some (svc 0 0 0)) 0
      [call_of 5 10 0, call_of 5 20 0, call_of 5 30 0, call_of 245 40 0, call_of 5 50 0] ≤ 2 ∧
    child_tally watch_err g_soft (some (svc 0 0 0)) 0
      [call_of 5 10 0, call_of 5 20 0, call_of 5 30 0, call_of 245 40 0, call_of 5 50 0] ≤ 2 ∧
    wd_run watch_err g_soft (some (svc 0 0 0))
      [call_of 5 10 0, call_of 5 20 0, call_of 5 30 0] = some (svc 0 0 3) :=
  ⟨⟨by decide, by decide, by decide, by decide⟩,
    (repair_budget watch_err g_soft 2 (by decide) (by decide) (svc 0 0 0) (by decide)
      [call_of 5 10 0, call_of 5 20 0, call_of 5 30 0, call_of 245 40 0, call_of 5 50 0]
      (by decide)).1,
    (repair_budget watch_err g_soft 2 (by decide) (by decide) (svc 0 0 0) (by decide)
      [call_of 5 10 0, call_of 5 20 0, call_of 5 30 0, call_of 245 40 0, call_of 5 50 0]
      (by decide)).2.1,
    by decide⟩

/-- C18: for a result handed to `attempt_repair` without an entry, the call
always acts at once, with version 0, no name and the global repair binary: for
every `retry_timeout` and `repair_max` the re-try block leaves `timeout` set,
the attempt-count block leaves `try_repair` set, and the call returns what
`repair` (called with the global binary, a NULL name and version 0) returns;
with a repair binary configured the child is run on every such call. -/
theorem attempt_repair_no_entity (g : Globals) (o : Oracle) (result : Int)
    (rbinary : Option String) :
    retry_check g o none = (true, none) ∧
    repair_gate g none = (true, none) ∧
    select_binary rbinary none = rbinary ∧ act_version none = 0 ∧ act_name none = none ∧
    attempt_repair g o result rbinary none =
      { result := (repair g o rbinary result none 0).1, act := none,
        events := (repair g o rbinary result none 0).2 } ∧
    (∀ rb : String, attempt_repair g o result (some rb) none =
      { result := o.run_func_as_child g.repair_timeout FLAG_REOPEN_STD_REPAIR
          [some rb, some rb, some (toString result), none, none, none],
        act := none,
        events := [Event.run_func_as_child g.repair_timeout FLAG_REOPEN_STD_REPAIR
          [some rb, some rb, some (toString result), none, none, none]] }) := by
  have hform : attempt_repair g o result rbinary none =
      { result := (repair g o rbinary result none 0).1, act := none,
        events := (repair g o rbinary result none 0).2 } := rfl
  refine ⟨rfl, rfl, rfl, rfl, rfl, hform, ?_⟩
  intro rb
  have h : attempt_repair g o result (some rb) none =
      { result := (repair g o (some rb) result none 0).1, act := none,
        events := (repair g o (some rb) result none 0).2 } := rfl
  rw [h, repair_run g o (some rb) result none 0 (by simp)]
  rfl

/-! ## The main loop -/

/-- C12, as stated, fails on the code: a pass of the loop that runs to
completion with no entry in any list issues `keep_alive` six times, not once,
and with three entries in the lists nine times. -/
theorem pets_per_cycle_counterexample :
    (cycle watch_err g60 quiet main1 reg0 start).2.stopped = false ∧
    pets (cycle watch_err g60 quiet main1 reg0 start).2.trace = 6 ∧
    (cycle watch_err g60 quiet main1 reg3 start).2.stopped = false ∧
    reg3.size = 3 ∧
    pets (cycle watch_err g60 quiet main1 reg3 start).2.trace = 9 := by
  decide

/-- C12, amended: in every pass of the main loop that runs to completion,
`keep_alive` is issued once at the head of the pass and once by each
`do_check`, that is after the sync and after every check: six times plus once
for every entry in the six lists. -/
theorem pets_per_cycle (c : ErrCodes) (g : Globals) (w : World) (m : Main) (reg : Registry)
    (r : Run) (hdone : (cycle c g w m reg r).2.stopped = false) :
    pets (cycle c g w m reg r).2.trace = pets r.trace + 6 + reg.size := by
  obtain ⟨_, h⟩ := cycle_live pet_of blind_pet c g w m reg r hdone
  rw [pets_eq, pets_eq, h]
  have hf : (fun p : Planned =>
      (pet_of (MainEvent.check p.f p.arg)).toList ++ (pet_of MainEvent.keep_alive).toList) =
      (fun _ => [()]) := rfl
  rw [hf, flatMap_single]
  simp only [List.length_append, List.length_map, spec_order_length]
  show _ + 1 + 1 + (4 + reg.size) + 0 + 0 + 0 = _
  omega

theorem pets_per_cycle_witness :
    (cycle watch_err g60 quiet main1 reg3 start).2.stopped = false ∧
    pets (cycle watch_err g60 quiet main1 reg3 start).2.trace = pets start.trace + 6 + reg3.size :=
  ⟨by decide, pets_per_cycle watch_err g60 quiet main1 reg3 start (by decide)⟩

/-- C13: when a sentinel `write_file` is configured and opening it fails, or
the write does not return 1, the pass ends the process at once: after the
failed call only `panic` and `exit(1)` happen (preceded by `close` after a
failed write), so there is no pet, no check, no call inside `wd_action` and no
`terminate`, in that pass and in the whole loop, and no entry is touched.  When
the write returns 1, or no sentinel is configured, the pass goes on with
`wd_action(keep_alive(), repair_bin, NULL)`. -/
theorem sentinel_fatal (c : ErrCodes) (g : Globals) (w : World) (m : Main) (reg : Registry)
    (r : Run) (hr : r.stopped = false) :
    (∀ path : String, m.write_file = some path → w.open_fd r.trace.length = -1 →
      cycle c g w m reg r =
        (reg, { trace := r.trace ++
          [MainEvent.open_file path, MainEvent.panic, MainEvent.exit 1], stopped := true }) ∧
      ∀ (fuel : Nat) (count : Int), w.sigterm r.trace.length = false →
        main_loop c g w m (fuel + 1) count reg r =
          (reg, { trace := r.trace ++
            [MainEvent.open_file path, MainEvent.panic, MainEvent.exit 1], stopped := true })) ∧
    (∀ path : String, m.write_file = some path → w.open_fd r.trace.length ≠ -1 →
      w.write_ret (r.trace.length + 1) ≠ 1 →
      cycle c g w m reg r =
        (reg, { trace := r.trace ++ [MainEvent.open_file path, MainEvent.write,
          MainEvent.close, MainEvent.panic, MainEvent.exit 1], stopped := true }) ∧
      ∀ (fuel : Nat) (count : Int), w.sigterm r.trace.length = false →
        main_loop c g w m (fuel + 1) count reg r =
          (reg, { trace := r.trace ++ [MainEvent.open_file path, MainEvent.write,
            MainEvent.close, MainEvent.panic, MainEvent.exit 1], stopped := true })) ∧
    (∀ path : String, m.write_file = some path → w.open_fd r.trace.length ≠ -1 →
      w.write_ret (r.trace.length + 1) = 1 →
      write_sentinel c g w m r =
        emit MainEvent.close
          (run_wd_action c g w (w.keep_alive (r.trace.length + 2)) m.repair_bin none
            { trace := r.trace ++
                [MainEvent.open_file path, MainEvent.write, MainEvent.keep_alive],
              stopped := false }).2) ∧
    (m.write_file = none →
      write_sentinel c g w m r =
        (run_wd_action c g w (w.keep_alive r.trace.length) m.repair_bin none
          { trace := r.trace ++ [MainEvent.keep_alive], stopped := false }).2) := by
  obtain ⟨t, st⟩ := r
  simp only at hr
  subst hr
  refine ⟨?_, ?_, ?_, ?_⟩
  · intro path hwf hfd
    have hcy : cycle c g w m reg { trace := t, stopped := false } =
        (reg, ⟨t ++ [MainEvent.open_file path, MainEvent.panic, MainEvent.exit 1], true⟩) := by
      unfold cycle
      rw [write_sentinel_open_fails c g w m t path hwf hfd]
      exact cycle_checks_stopped c g w m reg _ rfl
    refine ⟨hcy, ?_⟩
    intro fuel count hs
    rw [main_loop_cycle_stopped c g w m fuel count reg _ rfl hs (by rw [hcy]), hcy]
  · intro path hwf hfd hret
    have hcy : cycle c g w m reg { trace := t, stopped := false } =
        (reg, ⟨t ++ [MainEvent.open_file path, MainEvent.write, MainEvent.close,
          MainEvent.panic, MainEvent.exit 1], true⟩) := by
      unfold cycle
      rw [write_sentinel_write_fails c g w m t path hwf hfd hret]
      exact cycle_checks_stopped c g w m reg _ rfl
    refine ⟨hcy, ?_⟩
    intro fuel count hs
    rw [main_loop_cycle_stopped c g w m fuel count reg _ rfl hs (by rw [hcy]), hcy]
  · intro path hwf hfd hret
    exact write_sentinel_written c g w m t path hwf hfd hret
  · intro hwf
    exact write_sentinel_absent c g w m t hwf

theorem sentinel_fatal_witness :
    start.stopped = false ∧
    cycle watch_err g60 readonly_disk main_wf reg3 start =
      (reg3, ⟨[MainEvent.open_file "watchdog.txt", MainEvent.panic, MainEvent.exit 1], true⟩) ∧
    main_loop watch_err g60 full_disk main_wf 3 0 reg3 start =
      (reg3, { trace := [MainEvent.open_file "watchdog.txt", MainEvent.write, MainEvent.close,
        MainEvent.panic, MainEvent.exit 1], stopped := true }) :=
  ⟨rfl,
    ((sentinel_fatal watch_err g60 readonly_disk main_wf reg3 start rfl).1 "watchdog.txt" rfl
      (by decide)).1,
    ((sentinel_fatal watch_err g60 full_disk main_wf reg3 start rfl).2.1 "watchdog.txt" rfl
      (by decide) (by decide)).2 2 0 (by decide)⟩

/-- C14, as stated, fails on the code: the two sleeps do not depend on the
time the checks took.  With `tint = 1` and checks that consume half a second,
the pass takes 1.5 s, not 1 s, and it takes 1 s when the checks consume
nothing.  And at `tint = 2148` the product `tint * 1000000` no longer fits an
`int`, so the two sleeps do not add up to `tint` seconds. -/
theorem cycle_sleep_total_counterexample :
    ((0 : Int) < 1 ∧ (500000 : Int) ≤ 1 * 1000000 ∧ cycle_elapsed 1 500000 = 1500000 ∧
      cycle_elapsed 1 500000 ≠ 1 * 1000000 ∧ cycle_elapsed 1 0 ≠ cycle_elapsed 1 500000) ∧
    swait + twait 2148 ≠ 2148 * 1000000 := by
  decide

/-- C14, amended: for every interval `tint` with `0 < tint <= 2147` the settle
wait and the final sleep add up to `tint` seconds (`tint * 1000000`
microseconds), whatever time the checks consumed; a pass whose checks consume
`d` takes `d` plus `tint` seconds.  The sleeps of a pass that runs to
completion are exactly these two. -/
theorem cycle_sleep_total (tint : Int) (h1 : 0 < tint) (h2 : tint ≤ 2147) :
    swait + twait tint = tint * 1000000 ∧
    (∀ d : Int, cycle_elapsed tint d = d + tint * 1000000) ∧
    (∀ (c : ErrCodes) (g : Globals) (w : World) (m : Main) (reg : Registry) (r : Run),
      m.tint = tint → (cycle c g w m reg r).2.stopped = false →
      sleeps_of (cycle c g w m reg r).2.trace = sleeps_of r.trace ++ [swait, twait tint]) := by
  have ht := twait_exact tint h1 h2
  have hs : swait = 50000 := rfl
  refine ⟨by rw [ht, hs]; ring, ?_, ?_⟩
  · intro d
    unfold cycle_elapsed
    rw [ht, hs]
    ring
  · intro c g w m reg r hm hdone
    obtain ⟨_, h⟩ := cycle_live sleep_of blind_sleep c g w m reg r hdone
    rw [sleeps_of_eq, sleeps_of_eq, h, hm]
    have hf : (fun p : Planned =>
        (sleep_of (MainEvent.check p.f p.arg)).toList ++
          (sleep_of MainEvent.keep_alive).toList) = (fun _ => []) := rfl
    rw [hf]
    have hnil : ∀ l : List Planned, l.flatMap (fun _ => ([] : List Int)) = [] := by
      intro l
      induction l with
      | nil => rfl
      | cons a rest ih => rw [List.flatMap_cons, ih]; rfl
    rw [hnil]
    show _ ++ [] ++ [] ++ [] ++ [swait] ++ [] ++ [twait tint] = _
    simp

theorem cycle_sleep_total_witness :
    ((0 : Int) < 1 ∧ (1 : Int) ≤ 2147) ∧
    swait + twait 1 = 1 * 1000000 ∧
    sleeps_of (cycle watch_err g60 quiet main1 reg3 start).2.trace =
      sleeps_of start.trace ++ [swait, twait 1] :=
  ⟨by decide, (cycle_sleep_total 1 (by decide) (by decide)).1,
    (cycle_sleep_total 1 (by decide) (by decide)).2.2 watch_err g60 quiet main1 reg3 start rfl
      (by decide)⟩

/-- C15: the checks of one pass are carried out strictly one after the other
in the order of `spec_order`.  After the head of the pass and the sync (whose
result is passed to `wd_action` without an entry), the run of the pass is that
of the planned checks in turn: each check is evaluated, its result is passed
to `wd_action` with its own entry (`loadtimer`, `memtimer` and `alloctimer`
for load, memory and allocatable memory, no entry for the file table, the list
element for the checks of the six lists), the calls `wd_action` makes follow,
and the pet with its own `wd_action` comes before the next check is evaluated;
then come the settle wait, the closing `check_bin(NULL, ...)` and the final
sleep.  Every `do_check` is such a handling, every turn of a list loop leaves
in the list the entry as `wd_action` left it, and so do the three timers.  In
a pass that runs to completion the check calls are exactly those of the plan,
in order, and the closing one. -/
theorem checks_in_order (c : ErrCodes) (g : Globals) (w : World) (m : Main) (reg : Registry)
    (r : Run) :
    (cycle c g w m reg r).2 =
      emit (MainEvent.xusleep (twait m.tint))
        (run_check w CheckFn.check_bin none
          (emit (MainEvent.xusleep swait)
            (spec_run c g w m.repair_bin (spec_order reg)
              (spec_handle c g w m.repair_bin (sync_system m.sync_it).1 none
                ((sync_system m.sync_it).2.foldl (fun x e => emit e x)
                  (write_sentinel c g w m r))).2))).2 ∧
    ((cycle c g w m reg r).2.stopped = false →
      checks_of (cycle c g w m reg r).2.trace =
        checks_of r.trace ++ (spec_order reg).map (fun p => (p.f, p.arg)) ++
          [(CheckFn.check_bin, none)]) ∧
    (∀ (res : Int) (act : Option list) (x : Run),
      do_check c g w res m.repair_bin act x = spec_handle c g w m.repair_bin res act x) ∧
    (∀ (f : CheckFn) (a : list) (rest : List list) (x : Run),
      check_list c g w f m.repair_bin (a :: rest) x =
        (((spec_step c g w m.repair_bin x { f := f, arg := a.name, act := some a }).1.getD a) ::
            (check_list c g w f m.repair_bin rest
              (spec_step c g w m.repair_bin x { f := f, arg := a.name, act := some a }).2).1,
          (check_list c g w f m.repair_bin rest
            (spec_step c g w m.repair_bin x { f := f, arg := a.name, act := some a }).2).2)) ∧
    (∀ h : Run,
      h = (spec_handle c g w m.repair_bin (sync_system m.sync_it).1 none
        ((sync_system m.sync_it).2.foldl (fun x e => emit e x)
          (write_sentinel c g w m r))).2 →
      (cycle c g w m reg r).1.loadtimer =
        (spec_step c g w m.repair_bin (spec_run c g w m.repair_bin ((spec_order reg).take 1) h)
          { f := CheckFn.check_load, arg := none, act := reg.loadtimer }).1 ∧
      (cycle c g w m reg r).1.memtimer =
        (spec_step c g w m.repair_bin (spec_run c g w m.repair_bin ((spec_order reg).take 2) h)
          { f := CheckFn.check_memory, arg := none, act := reg.memtimer }).1 ∧
      (cycle c g w m reg r).1.alloctimer =
        (spec_step c g w m.repair_bin (spec_run c g w m.repair_bin ((spec_order reg).take 3) h)
          { f := CheckFn.check_allocatable, arg := none, act := reg.alloctimer }).1) := by
  refine ⟨?_, ?_, ?_, ?_, ?_⟩
  · unfold cycle
    rw [cycle_checks_run, loop_run_spec, do_check_spec]
    rfl
  · intro hdone
    obtain ⟨_, h⟩ := cycle_live check_of blind_check c g w m reg r hdone
    rw [checks_of_eq, checks_of_eq, h]
    have hf : (fun p : Planned =>
        (check_of (MainEvent.check p.f p.arg)).toList ++
          (check_of MainEvent.keep_alive).toList) = (fun p => [(p.f, p.arg)]) := rfl
    rw [hf, flatMap_single]
    show _ ++ [] ++ [] ++ _ ++ [] ++ [(CheckFn.check_bin, none)] ++ [] = _
    simp
  · intro res act x
    exact do_check_spec c g w res m.repair_bin act x
  · intro f a rest x
    show ((do_check c g w (run_check w f a.name x).1 m.repair_bin (some a)
        (run_check w f a.name x).2).1.getD a ::
          (check_list c g w f m.repair_bin rest
            (do_check c g w (run_check w f a.name x).1 m.repair_bin (some a)
              (run_check w f a.name x).2).2).1,
        (check_list c g w f m.repair_bin rest
          (do_check c g w (run_check w f a.name x).1 m.repair_bin (some a)
            (run_check w f a.name x).2).2).2) = _
    rw [loop_step_spec]
  · intro h hh
    subst hh
    unfold cycle cycle_checks
    simp only [loop_step_spec]
    simp only [do_check_spec]
    exact ⟨rfl, rfl, rfl⟩

theorem checks_in_order_witness :
    (cycle watch_err g_soft svc_fails main1 reg3 start).2.stopped = false ∧
    checks_of (cycle watch_err g_soft svc_fails main1 reg3 start).2.trace =
      [(CheckFn.check_file_table, none), (CheckFn.check_load, none),
        (CheckFn.check_memory, none), (CheckFn.check_allocatable, none),
        (CheckFn.check_file_stat_safe, some "/var/log/syslog"),
        (CheckFn.check_bin, some "svc"), (CheckFn.check_bin, some "tst"),
        (CheckFn.check_bin, none)] ∧
    spec_step watch_err g_soft svc_fails (some "/bin/fix") start
        { f := CheckFn.check_bin, arg := some "svc", act := some (svc 1 0 0) } =
      (some (svc 1 0 1),
        ⟨[MainEvent.check CheckFn.check_bin (some "svc"),
          MainEvent.action (Event.run_func_as_child 60 4
            [some "svc", some "svc", some "repair", some "5", some "svc", none]),
          MainEvent.keep_alive], false⟩) ∧
    (cycle watch_err g_soft svc_fails main1 reg3 start).1.tr_bin_list =
      [svc 1 0 1, fresh "tst"] :=
  ⟨by decide,
    (checks_in_order watch_err g_soft svc_fails main1 reg3 start).2.1 (by decide),
    by decide, by decide⟩

end Watchdog
